import Mathlib

/-!
# lua_flatbuffers: the schema compiler and the encoding engine of `lflatbuffers.cpp`

A shallow embedding of `src/lflatbuffers.cpp`.

* `reflection.*` is the logical view of a verified binary schema (object list, field
  lists, types), read through the accessors the source uses.
* `sequence` is the build sequence (`struct sequence`), `make_object_sequence` its compiler.
* `lua_State` is the Lua stack as the source addresses it (absolute indices), with the
  handful of Lua C API calls the source makes.
* `FlatBufferBuilder` is the arena `_fbb`: every call the source makes on it is recorded
  in `calls`, and the sizes, field locations and bytes follow the FlatBuffers builder.
* `lflatbuffers` is the engine object; its methods are state transformers.

C++ control flow that leaves a function other than by `return` is explicit:
`Outcome.lua_error` is a Lua error raised inside a Lua API call (a `longjmp`),
`Outcome.aborted` is a failed `assert` in a build without `NDEBUG`.
-/

namespace lua_flatbuffers

/-! ## Build and platform parameters -/

/-- Facts fixed by the build and by the Lua runtime, not by `lflatbuffers.cpp`.
`ndebug` tells whether `assert` is compiled out; `str2number` is Lua's coercion of a
string to a number (`none` when the string is not convertible); `float_bits` and
`double_bits` give the IEEE-754 bit pattern that `static_cast<float>` and
`static_cast<double>` of a Lua number produce. -/
structure Env where
  ndebug : Bool
  str2number : String → Option Int
  float_bits : Int → Nat
  double_bits : Int → Nat

/-! ## The reflected schema (`reflection::Schema`) -/

namespace reflection

/-- The enumeration `reflection::BaseType`. -/
inductive BaseType where
  | None | UType | Bool | Byte | UByte | Short | UShort | Int | UInt | Long | ULong
  | Float | Double | String | Vector | Obj | Union
deriving DecidableEq, Repr

/-- The table `reflection::Type`: `index` is the position of the referenced Object in
`Schema.objects` when `base_type` (or `element`) is `Obj`. -/
structure Type_ where
  base_type : BaseType
  element : BaseType
  index : Int
deriving DecidableEq, Repr

/-- The table `reflection::Field`. `offset` is a byte offset in a struct and the vtable
slot in a table. -/
structure Field where
  name : String
  type : Type_
  offset : Nat
deriving DecidableEq, Repr

/-- The table `reflection::Object`; `fields` is the field vector in the order the
source iterates it. -/
structure Object where
  name : String
  fields : List Field
  is_struct : Bool
  minalign : Nat
  bytesize : Nat
deriving DecidableEq, Repr

/-- The root table `reflection::Schema`, reduced to its object vector. -/
structure Schema where
  objects : List Object
deriving DecidableEq, Repr

end reflection

open reflection

/-! ## Build sequences -/

/-- The record `struct sequence`: the field this entry was reached through (`none` for
a root, where the source leaves it `NULL`), the Object, the nested entries and the
scalar fields. -/
inductive sequence where
  | mk (field : Option Field) (object : Object) (nested : List sequence)
      (scalar : List Field)

namespace sequence

/-- Member `field`. -/
def field : sequence → Option Field
  | mk f _ _ _ => f

/-- Member `object`. -/
def object : sequence → Object
  | mk _ o _ _ => o

/-- Member `nested`. -/
def nested : sequence → List sequence
  | mk _ _ n _ => n

/-- Member `scalar`. -/
def scalar : sequence → List Field
  | mk _ _ _ s => s

end sequence

/-- Ways in which a call does not come back with a result. -/
inductive Halt where
  | assert_failed
  | out_of_range
  | out_of_fuel
deriving DecidableEq, Repr

/-- The call `schema->objects()->Get( i )`; an index outside the vector is undefined
behaviour in C++ and halts the model. -/
def Schema_objects_Get (schema : Schema) (i : Int) : Except Halt Object :=
  if 0 ≤ i then
    match schema.objects[i.toNat]? with
    | some o => .ok o
    | none => .error .out_of_range
  else .error .out_of_range

/-- The macro `PUSH_SEQUENCE`: a fresh entry for `fld` and `sub_object` is compiled by
`compile` and pushed at the back of `seq.nested`. -/
def PUSH_SEQUENCE (compile : sequence → Object → Except Halt sequence)
    (seq : sequence) (fld : Field) (sub_object : Object) : Except Halt sequence :=
  match compile (.mk (some fld) sub_object [] []) sub_object with
  | .ok sub_seq => .ok (.mk seq.field seq.object (seq.nested ++ [sub_seq]) seq.scalar)
  | .error h => .error h

/-- One iteration of the loop of `make_object_sequence`: the `switch` on the base type
of the field. -/
def make_object_sequence_field (env : Env)
    (compile : sequence → Object → Except Halt sequence)
    (schema : Schema) (seq : sequence) (fld : Field) : Except Halt sequence :=
  match fld.type.base_type with
  | .Obj =>
    match Schema_objects_Get schema fld.type.index with
    | .ok sub_object => PUSH_SEQUENCE compile seq fld sub_object
    | .error h => .error h
  | .Vector =>
    if fld.type.element = .Obj then
      match Schema_objects_Get schema fld.type.index with
      | .ok sub_object => PUSH_SEQUENCE compile seq fld sub_object
      | .error h => .error h
    else .ok (.mk seq.field seq.object seq.nested (seq.scalar ++ [fld]))
  | .None => if env.ndebug then .ok seq else .error .assert_failed
  | _ => .ok (.mk seq.field seq.object seq.nested (seq.scalar ++ [fld]))

/-- The loop of `make_object_sequence` over the fields that remain. -/
def make_object_sequence_loop (env : Env)
    (compile : sequence → Object → Except Halt sequence)
    (schema : Schema) : List Field → sequence → Except Halt sequence
  | [], seq => .ok seq
  | fld :: rest, seq =>
    match make_object_sequence_field env compile schema seq fld with
    | .ok seq1 => make_object_sequence_loop env compile schema rest seq1
    | .error h => .error h

/-- The method `lflatbuffers::make_object_sequence`. The recursion follows the schema
graph, so it is bounded by `fuel`, the number of nested activations allowed. -/
def make_object_sequence (env : Env) (schema : Schema) :
    Nat → sequence → Object → Except Halt sequence
  | 0, _, _ => .error .out_of_fuel
  | fuel + 1, seq, object =>
    make_object_sequence_loop env (make_object_sequence env schema fuel) schema
      object.fields seq

/-! ## The Lua stack -/

/-- A Lua value as the encoder can observe it. Numbers are the integral ones; a table is
its list of string-keyed entries, read by first match. -/
inductive LuaValue where
  | nil
  | boolean (b : Bool)
  | number (n : Int)
  | string (s : String)
  | table (entries : List (String × LuaValue))

/-- The Lua state: the stack of the running C function, bottom first, so that the
value at absolute index `i` is the `i`-th element. -/
structure lua_State where
  stack : List LuaValue

/-- The value at an absolute index; `none` stands for `LUA_TNONE` (no value there). -/
def index2value (L : lua_State) (idx : Nat) : Option LuaValue :=
  if idx = 0 then none else L.stack[idx - 1]?

/-- The call `lua_gettop`. -/
def lua_gettop (L : lua_State) : Nat := L.stack.length

/-- The macro `lua_pop`. -/
def lua_pop (L : lua_State) (n : Nat) : lua_State :=
  ⟨L.stack.take (L.stack.length - n)⟩

/-- Pushing one value on the stack. -/
def lua_push (L : lua_State) (v : LuaValue) : lua_State := ⟨L.stack ++ [v]⟩

/-- Raw lookup of a key in the entries of a table; an absent key reads `nil`. -/
def table_get (k : String) : List (String × LuaValue) → LuaValue
  | [] => .nil
  | (k1, v) :: rest => if k1 = k then v else table_get k rest

/-- The call `lua_getfield( L,idx,k )`: pushes `t[k]` for the table `t` at `idx`.
Indexing anything that is not a table raises a Lua error (`none`); metatables are not
modelled. -/
def lua_getfield (L : lua_State) (idx : Nat) (k : String) : Option lua_State :=
  match index2value L idx with
  | some (.table entries) => some (lua_push L (table_get k entries))
  | _ => none

/-- The macro `lua_isnil`. -/
def lua_isnil (L : lua_State) (idx : Nat) : Bool :=
  match index2value L idx with
  | some .nil => true
  | _ => false

/-- The call `lua_isnumber`: true for a number and for a string convertible to one. -/
def lua_isnumber (env : Env) (L : lua_State) (idx : Nat) : Bool :=
  match index2value L idx with
  | some (.number _) => true
  | some (.string s) => (env.str2number s).isSome
  | _ => false

/-- The calls `lua_tointeger` and `lua_tonumber` on the integral numbers of the model:
the number, the number a string converts to, and `0` for everything else. -/
def lua_tointeger (env : Env) (L : lua_State) (idx : Nat) : Int :=
  match index2value L idx with
  | some (.number n) => n
  | some (.string s) => (env.str2number s).getD 0
  | _ => 0

/-- The call `lua_toboolean`: false for `nil`, `false` and no value. -/
def lua_toboolean (L : lua_State) (idx : Nat) : Bool :=
  match index2value L idx with
  | some .nil => false
  | some (.boolean b) => b
  | some _ => true
  | none => false

/-- The composition `lua_typename( L,lua_type( L,idx ) )`. -/
def lua_typename (L : lua_State) (idx : Nat) : String :=
  match index2value L idx with
  | none => "no value"
  | some .nil => "nil"
  | some (.boolean _) => "boolean"
  | some (.number _) => "number"
  | some (.string _) => "string"
  | some (.table _) => "table"

/-! ## Scalars -/

/-- The size in bytes of the C++ type the source pairs with a scalar base type
(`0` for the base types that are no scalars). -/
def scalar_size : BaseType → Nat
  | .UType | .Bool | .Byte | .UByte => 1
  | .Short | .UShort => 2
  | .Int | .UInt | .Float => 4
  | .Long | .ULong | .Double => 8
  | _ => 0

/-- The bit pattern of `static_cast<T>(val)` for an integer type `T` of `w` bytes. -/
def static_cast_bits (w : Nat) (val : Int) : Nat := (val % (2 : Int) ^ (8 * w)).toNat

/-- The bit pattern that the encoder stores for the Lua number `val` in a field of
base type `bt`: wrap-around for the integer types, IEEE-754 for the two float types. -/
def scalar_bits (env : Env) (bt : BaseType) (val : Int) : Nat :=
  match bt with
  | .Float => env.float_bits val
  | .Double => env.double_bits val
  | _ => static_cast_bits (scalar_size bt) val

/-- Whether `static_cast<T>(val) == 0`, the test `AddElement` makes against the
default `0` the source passes. -/
def scalar_is_zero (bt : BaseType) (val : Int) : Bool :=
  match bt with
  | .Float | .Double => val == 0
  | _ => static_cast_bits (scalar_size bt) val == 0

/-- The `w` bytes of `bits`, least significant first. -/
def little_endian (w bits : Nat) : List Nat :=
  (List.range w).map (fun i => bits / 256 ^ i % 256)

/-! ## The arena (`flatbuffers::FlatBufferBuilder`) -/

/-- A call the source makes on `_fbb`, with the arguments it passes. `AddElement T f v`
is `AddElement<T>( f,v,0 )`, the C++ type being named by its base type. -/
inductive FbbCall where
  | Clear
  | StartStruct (alignment : Nat)
  | ReserveElements (len elemsize : Nat)
  | EndStruct
  | StartTable
  | AddElement (T : BaseType) (field : Nat) (val : Int)
  | AddOffset (field : Nat) (off : Nat)
  | EndTable (start numfields : Nat)
  | Finish (root : Option Nat)
deriving DecidableEq, Repr

/-- The builder. Memory is addressed from the end of the downward-growing buffer: the
address `-d` is the byte `d` bytes before the end, so `buf_.data()` is `-size` and
`p + k` is pointer arithmetic. `buf` lists the bytes stored so far, the latest store
first; a byte is `none` when an indeterminate value was stored. `offsetbuf` holds the
field locations `(off, id)` of the table under construction. `calls` is the history
of calls made by the source. -/
structure FlatBufferBuilder where
  buf : List (Int × Option Nat)
  size : Nat
  minalign : Nat
  nested : Bool
  finished : Bool
  offsetbuf : List (Nat × Nat)
  vtables : List Nat
  force_defaults : Bool
  calls : List FbbCall

namespace FlatBufferBuilder

/-- The byte at an address: `none` when nothing determinate was stored there. -/
def read_byte (b : FlatBufferBuilder) (a : Int) : Option Nat :=
  match b.buf.lookup a with
  | some v => v
  | none => none

/-- Stores the bytes `bs` at the addresses `p`, `p + 1`, ... -/
def store (b : FlatBufferBuilder) (p : Int) (bs : List (Option Nat)) : FlatBufferBuilder :=
  { b with buf := (bs.enum.map (fun ib => (p + (ib.1 : Int), ib.2))).reverse ++ b.buf }

/-- The function `flatbuffers::WriteScalar` for a scalar of `w` bytes, little-endian. -/
def WriteScalar (b : FlatBufferBuilder) (p : Int) (w bits : Nat) : FlatBufferBuilder :=
  b.store p ((little_endian w bits).map some)

/-- The function `flatbuffers::ReadScalar` for a scalar of `w` bytes. -/
def ReadScalar (b : FlatBufferBuilder) (p : Int) (w : Nat) : Option Nat :=
  (List.range w).foldr
    (fun i acc => match b.read_byte (p + (i : Int)), acc with
      | some x, some r => some (x + 256 * r)
      | _, _ => none)
    (some 0)

/-- The function `PaddingBytes` on 64-bit `size_t`:
`((~buf_size) + 1) & (scalar_size - 1)`. -/
def PaddingBytes (buf_size scalar_size : Nat) : Nat :=
  ((2 ^ 64 - buf_size % 2 ^ 64) % 2 ^ 64) &&& ((scalar_size + 2 ^ 64 - 1) % 2 ^ 64)

/-- The buffer operation `make_space`: the buffer grows downward by `len` bytes whose
content is left as it is; the new `buf_.data()` is returned. -/
def make_space (b : FlatBufferBuilder) (len : Nat) : FlatBufferBuilder × Int :=
  ({ b with size := b.size + len }, -((b.size + len : Nat) : Int))

/-- The buffer operation `fill`: `n` zero bytes. -/
def fill (b : FlatBufferBuilder) (n : Nat) : FlatBufferBuilder :=
  let r := b.make_space n
  r.1.store r.2 (List.replicate n (some 0))

/-- The member `Align`. -/
def Align (b : FlatBufferBuilder) (elem_size : Nat) : FlatBufferBuilder :=
  let b1 := if elem_size > b.minalign then { b with minalign := elem_size } else b
  b1.fill (PaddingBytes b1.size elem_size)

/-- The member `PushElement` for a scalar of `w` bytes given by its bytes; the result
is `GetSize()` after the push. -/
def PushBytes (b : FlatBufferBuilder) (w : Nat) (bs : List (Option Nat)) :
    FlatBufferBuilder × Nat :=
  let r := (b.Align w).make_space w
  (r.1.store r.2 bs, r.1.size)

/-- The member `PushElement` for a scalar of `w` bytes with a determinate value. -/
def PushElement (b : FlatBufferBuilder) (w bits : Nat) : FlatBufferBuilder × Nat :=
  b.PushBytes w ((little_endian w bits).map some)

/-- Appends a call to the history. -/
def record (b : FlatBufferBuilder) (c : FbbCall) : FlatBufferBuilder :=
  { b with calls := b.calls ++ [c] }

/-- The member `Clear`: the builder is reset; the bytes of the buffer are not erased. -/
def Clear (b : FlatBufferBuilder) : FlatBufferBuilder :=
  { b.record .Clear with
    size := 0, offsetbuf := [], nested := false, finished := false, vtables := [],
    minalign := 1 }

/-- The member `StartStruct`. -/
def StartStruct (b : FlatBufferBuilder) (alignment : Nat) : FlatBufferBuilder :=
  (b.record (.StartStruct alignment)).Align alignment

/-- The member `ReserveElements`: `make_space( len * elemsize )`. -/
def ReserveElements (b : FlatBufferBuilder) (len elemsize : Nat) : FlatBufferBuilder × Int :=
  (b.record (.ReserveElements len elemsize)).make_space (len * elemsize)

/-- The member `EndStruct`: `GetSize()`. -/
def EndStruct (b : FlatBufferBuilder) : FlatBufferBuilder × Nat :=
  (b.record .EndStruct, b.size)

/-- The member `StartTable`: `GetSize()`, with the builder marked as nested. -/
def StartTable (b : FlatBufferBuilder) : FlatBufferBuilder × Nat :=
  ({ b.record .StartTable with nested := true }, b.size)

/-- The body of `AddElement<T>( field,e,0 )` for an element of `w` bytes: an element
equal to the default is left out unless defaults are forced; otherwise it is pushed and
its location tracked. -/
def AddBits (b : FlatBufferBuilder) (field w bits : Nat) (is_zero : Bool) :
    FlatBufferBuilder :=
  if is_zero && !b.force_defaults then b
  else
    let r := b.PushElement w bits
    { r.1 with offsetbuf := r.1.offsetbuf ++ [(r.2, field)] }

/-- The member `AddElement<T>( field,val,0 )` as the source calls it, `val` being
converted to `T`. -/
def AddElement (env : Env) (b : FlatBufferBuilder) (T : BaseType) (field : Nat) (val : Int) :
    FlatBufferBuilder :=
  (b.record (.AddElement T field val)).AddBits field (scalar_size T) (scalar_bits env T val)
    (scalar_is_zero T val)

/-- The member `ReferTo`: aligns, then gives the distance to `off` in 32 bits. -/
def ReferTo (b : FlatBufferBuilder) (off : Nat) : FlatBufferBuilder × Nat :=
  let b1 := b.Align 4
  (b1, static_cast_bits 4 ((b1.size : Int) - (off : Int) + 4))

/-- The member `AddOffset`: a null offset adds nothing. -/
def AddOffset (b : FlatBufferBuilder) (field off : Nat) : FlatBufferBuilder :=
  let b0 := b.record (.AddOffset field off)
  if off = 0 then b0
  else
    let r := b0.ReferTo off
    r.1.AddBits field 4 r.2 (r.2 == 0)

/-- The search of `EndTable` for an earlier vtable equal to the one just written at
`buf_.data()`: the offset of the first one found. -/
def find_vtable (b : FlatBufferBuilder) (vt1_size : Option Nat) : List Nat → Option Nat
  | [] => none
  | it :: rest =>
    let same := vt1_size == b.ReadScalar (-(it : Int)) 2 &&
      (List.range (vt1_size.getD 0)).all
        (fun i => b.read_byte (-(it : Int) + (i : Int)) == b.read_byte (-(b.size : Int) + (i : Int)))
    if same then some it else find_vtable b vt1_size rest

/-- The member `EndTable( start,numfields )`: writes the vtable, shares it with an equal
earlier one, patches the table header and gives the offset of the table. -/
def EndTable (b : FlatBufferBuilder) (start numfields : Nat) : FlatBufferBuilder × Nat :=
  let nf := numfields % 2 ^ 16
  let r0 := (b.record (.EndTable start numfields)).PushElement 4 0
  let vtableoffsetloc := r0.2
  let b1 := r0.1.fill (nf * 2)
  let table_object_size := static_cast_bits 4 ((vtableoffsetloc : Int) - (start : Int))
  let b2 := (b1.PushElement 2 (table_object_size % 2 ^ 16)).1
  let b3 := (b2.PushElement 2 ((nf + 2) * 2 % 2 ^ 16)).1
  let b4 := b3.offsetbuf.foldl
    (fun acc loc => acc.WriteScalar (-(acc.size : Int) + (loc.2 : Int)) 2
      (static_cast_bits 2 ((vtableoffsetloc : Int) - (loc.1 : Int))))
    b3
  let b5 := { b4 with offsetbuf := [] }
  let vt1_size := b5.ReadScalar (-(b5.size : Int)) 2
  let b6 := match find_vtable b5 vt1_size b5.vtables with
    | some it => ({ b5 with size := vtableoffsetloc }, it)
    | none => ({ b5 with vtables := b5.vtables ++ [b5.size] }, b5.size)
  let b7 := b6.1.WriteScalar (-(vtableoffsetloc : Int)) 4
    (static_cast_bits 4 ((b6.2 : Int) - (vtableoffsetloc : Int)))
  ({ b7 with nested := false }, vtableoffsetloc)

/-- The member `Finish( root )` without file identifier; `root` is `none` when the
source passes a variable it never assigned. -/
def Finish (b : FlatBufferBuilder) (root : Option Nat) : FlatBufferBuilder :=
  let b0 := b.record (.Finish root)
  let b1 := b0.fill (PaddingBytes (b0.size + 4) b0.minalign)
  let b2 := match root with
    | some off => let r := b1.ReferTo off; (r.1.PushElement 4 r.2).1
    | none => ((b1.Align 4).PushBytes 4 (List.replicate 4 none)).1
  { b2 with finished := true }

end FlatBufferBuilder

/-! ## The engine object -/

/-- The member `_error_collector`: the message, the schema name and the backtrace, whose
entries are listed in the order they were pushed. -/
structure error_collector where
  what : String
  schema : String
  backtrace : List String
deriving DecidableEq, Repr

/-- The class `lflatbuffers`: raw schema buffers by file name, build sequences by schema
name and object name, the error collector and the builder. Maps are association lists
read by first match. -/
structure lflatbuffers where
  _bfbs_buffer : List (String × String)
  _schema : List (String × List (String × sequence))
  _error_collector : error_collector
  _fbb : FlatBufferBuilder

/-- How a call of an encoder method ends: it returns an `int`, or a Lua error is raised
inside it, or the process is stopped (a failed `assert`, a null pointer dereferenced). -/
inductive Outcome where
  | returned (r : Int)
  | lua_error
  | aborted
deriving DecidableEq, Repr

/-- The end of a call and the state it leaves. -/
structure Result where
  outcome : Outcome
  L : lua_State
  self : lflatbuffers

/-- The end of one loop iteration: `exit` is `none` when the loop goes on. -/
structure Step where
  exit : Option Outcome
  L : lua_State
  self : lflatbuffers

namespace lflatbuffers

/-- The statements `_error_collector.what = what; _error_collector.backtrace.push( name )`. -/
def raise (self : lflatbuffers) (what name : String) : lflatbuffers :=
  { self with _error_collector :=
      { self._error_collector with
        what := what, backtrace := self._error_collector.backtrace ++ [name] } }

/-- The statement `_error_collector.backtrace.push( name )`. -/
def backtrace_push (self : lflatbuffers) (name : String) : lflatbuffers :=
  { self with _error_collector :=
      { self._error_collector with
        backtrace := self._error_collector.backtrace ++ [name] } }

end lflatbuffers

/-! ## `encode_struct` -/

namespace lflatbuffers

/-- The macro `CHECK_FIELD` of `encode_struct`: the field is read from the value at
`index`; when the value at `index + 1` is `nil` the call fails with `-1`. -/
def struct_CHECK_FIELD (index : Nat) (fld : Field) (L : lua_State) (self : lflatbuffers) :
    Step :=
  match lua_getfield L index fld.name with
  | none => ⟨some .lua_error, L, self⟩
  | some L1 =>
    if lua_isnil L1 (index + 1) then
      ⟨some (.returned (-1)), lua_pop L1 1, self.raise "missing required field" fld.name⟩
    else ⟨none, L1, self⟩

/-- The macros `SET_INTEGER(T)` and `SET_NUMBER(T)`, `T` being the C++ type of the base
type `bt`: the test on `lua_isnumber`, then the store at `data`. -/
def SET_NUMBER (env : Env) (bt : BaseType) (data : Int) (index : Nat) (fld : Field)
    (L : lua_State) (self : lflatbuffers) : Step :=
  if lua_isnumber env L (index + 1) then
    ⟨some (.returned (-1)), lua_pop L 1,
      self.raise ("expect number,got" ++ lua_typename L (index + 1)) fld.name⟩
  else
    let val := lua_tointeger env L (index + 1)
    let b := self._fbb.WriteScalar data (scalar_size bt) (scalar_bits env bt val)
    ⟨none, L, { self with _fbb := b }⟩

/-- One iteration of the scalar loop of `encode_struct`, up to the `lua_pop` that
ends it. -/
def encode_struct_field (env : Env) (buffer : Int) (index : Nat) (fld : Field)
    (L : lua_State) (self : lflatbuffers) : Step :=
  let c := struct_CHECK_FIELD index fld L self
  match c.exit with
  | some o => ⟨some o, c.L, c.self⟩
  | none =>
    let data := buffer + (fld.offset : Int)
    let s : Step :=
      match fld.type.base_type with
      | .None | .String | .Vector | .Union | .Obj =>
        if env.ndebug then ⟨none, c.L, c.self⟩ else ⟨some .aborted, c.L, c.self⟩
      | .Bool =>
        let val := lua_toboolean c.L (index + 1)
        let b := c.self._fbb.WriteScalar data 1 (if val then 1 else 0)
        ⟨none, c.L, { c.self with _fbb := b }⟩
      | bt => SET_NUMBER env bt data index fld c.L c.self
    match s.exit with
    | some o => ⟨some o, s.L, s.self⟩
    | none => ⟨none, lua_pop s.L 1, s.self⟩

/-- The scalar loop of `encode_struct` and the `return 0` after it. -/
def encode_struct_scalar (env : Env) (buffer : Int) (index : Nat) :
    List Field → lua_State → lflatbuffers → Result
  | [], L, self => ⟨.returned 0, L, self⟩
  | fld :: rest, L, self =>
    let s := encode_struct_field env buffer index fld L self
    match s.exit with
    | some o => ⟨o, s.L, s.self⟩
    | none => encode_struct_scalar env buffer index rest s.L s.self

mutual

/-- The method `lflatbuffers::encode_struct`. -/
def encode_struct (env : Env) (buffer : Int) (index : Nat) :
    sequence → lua_State → lflatbuffers → Result
  | .mk _ object nested scalar, L, self =>
    if !env.ndebug && !object.is_struct then ⟨.aborted, L, self⟩
    else
      let n := encode_struct_nested env buffer index nested L self
      match n.exit with
      | some o => ⟨o, n.L, n.self⟩
      | none =>
        if !env.ndebug && lua_gettop n.L != index then ⟨.aborted, n.L, n.self⟩
        else encode_struct_scalar env buffer index scalar n.L n.self

/-- The nested loop of `encode_struct`. An entry without field makes the source
dereference `NULL`. -/
def encode_struct_nested (env : Env) (buffer : Int) (index : Nat) :
    List sequence → lua_State → lflatbuffers → Step
  | [], L, self => ⟨none, L, self⟩
  | sub :: rest, L, self =>
    match sub.field with
    | none => ⟨some .aborted, L, self⟩
    | some fld =>
      if !env.ndebug && !sub.object.is_struct then ⟨some .aborted, L, self⟩
      else
        let c := struct_CHECK_FIELD index fld L self
        match c.exit with
        | some o => ⟨some o, c.L, c.self⟩
        | none =>
          let r := encode_struct env (buffer + (fld.offset : Int)) (index + 1) sub c.L c.self
          match r.outcome with
          | .returned v =>
            if v < 0 then ⟨some (.returned (-1)), lua_pop r.L 1, r.self⟩
            else encode_struct_nested env buffer index rest (lua_pop r.L 1) r.self
          | o => ⟨some o, r.L, r.self⟩

end

/-! ## `encode_object` and `encode_table` -/

/-- The method `lflatbuffers::encode_object`. The second component is the value the
call assigns to the reference `offset`, `none` when it assigns nothing. -/
def encode_object (env : Env) (index : Nat) (seq : sequence) (L : lua_State)
    (self : lflatbuffers) : Result × Option Nat :=
  if seq.object.is_struct then
    let b1 := self._fbb.StartStruct seq.object.minalign
    let rb := b1.ReserveElements seq.object.bytesize 1
    let r := encode_struct env rb.2 index seq L { self with _fbb := rb.1 }
    match r.outcome with
    | .returned _ =>
      let e := r.self._fbb.EndStruct
      (⟨.returned 0, r.L, { r.self with _fbb := e.1 }⟩, some e.2)
    | o => (⟨o, r.L, r.self⟩, none)
  else (⟨.returned 0, L, self⟩, none)

/-- The macro `CHECK_FIELD` of `encode_table`: the field is read from the value at
`index`; when the value at `index + 1` is `nil` it is popped. The `continue` of the macro
stands inside its own `do ... while(0)`, so it ends the macro, not the iteration of
the `for` loop: the iteration goes on after the macro in both cases. `none` is a Lua
error raised by `lua_getfield`. -/
def table_CHECK_FIELD (index : Nat) (fld : Field) (L : lua_State) : Option lua_State :=
  match lua_getfield L index fld.name with
  | none => none
  | some L1 => if lua_isnil L1 (index + 1) then some (lua_pop L1 1) else some L1

/-- The nested loop of `encode_table`; `nested_offset` is the vector of the same name,
returned as it stands when the loop ends or exits. -/
def encode_table_nested (env : Env) (index : Nat) :
    List sequence → List (Nat × Nat) → lua_State → lflatbuffers → Step × List (Nat × Nat)
  | [], nested_offset, L, self => (⟨none, L, self⟩, nested_offset)
  | sub :: rest, nested_offset, L, self =>
    match sub.field with
    | none => (⟨some .aborted, L, self⟩, nested_offset)
    | some fld =>
      match table_CHECK_FIELD index fld L with
      | none => (⟨some .lua_error, L, self⟩, nested_offset)
      | some L1 =>
        let r := encode_object env index sub L1 self
        match r.1.outcome with
        | .returned v =>
          if v < 0 then
            (⟨some (.returned (-1)), lua_pop r.1.L 1, r.1.self.backtrace_push fld.name⟩,
              nested_offset)
          else
            encode_table_nested env index rest
              (nested_offset ++ [(fld.offset, r.2.getD 0)]) (lua_pop r.1.L 1) r.1.self
        | o => (⟨some o, r.1.L, r.1.self⟩, nested_offset)

/-- The macros `ADD_INTEGER(T)` and `ADD_NUMBER(T)`, `T` being the C++ type of `bt`. -/
def ADD_NUMBER (env : Env) (bt : BaseType) (off : Nat) (index : Nat) (fld : Field)
    (L : lua_State) (self : lflatbuffers) : Step :=
  if lua_isnumber env L (index + 1) then
    ⟨some (.returned (-1)), lua_pop L 1,
      self.raise ("expect number,got" ++ lua_typename L (index + 1)) fld.name⟩
  else
    let val := lua_tointeger env L (index + 1)
    ⟨none, L, { self with _fbb := self._fbb.AddElement env bt off val }⟩

/-- One iteration of the scalar loop of `encode_table`: `CHECK_FIELD`, the `switch`
and the `lua_pop` that ends the iteration. -/
def encode_table_field (env : Env) (index : Nat) (fld : Field)
    (L : lua_State) (self : lflatbuffers) : Step :=
  match table_CHECK_FIELD index fld L with
  | none => ⟨some .lua_error, L, self⟩
  | some L1 =>
    let off := fld.offset
    let s : Step :=
      match fld.type.base_type with
      | .Obj | .None =>
        if env.ndebug then ⟨none, L1, self⟩ else ⟨some .aborted, L1, self⟩
      | .String | .Vector | .Union => ⟨none, L1, self⟩
      | .Bool =>
        let bool_val := lua_toboolean L1 (index + 1)
        let b := self._fbb.AddElement env .UByte off (if bool_val then 1 else 0)
        ⟨none, L1, { self with _fbb := b }⟩
      | bt => ADD_NUMBER env bt off index fld L1 self
    match s.exit with
    | some o => ⟨some o, s.L, s.self⟩
    | none => ⟨none, lua_pop s.L 1, s.self⟩

/-- The scalar loop of `encode_table`. -/
def encode_table_scalar (env : Env) (index : Nat) :
    List Field → lua_State → lflatbuffers → Step
  | [], L, self => ⟨none, L, self⟩
  | fld :: rest, L, self =>
    let s := encode_table_field env index fld L self
    match s.exit with
    | some o => ⟨some o, s.L, s.self⟩
    | none => encode_table_scalar env index rest s.L s.self

/-- The last loop of `encode_table`: one `AddOffset` for each recorded pair. -/
def add_nested_offsets (b : FlatBufferBuilder) : List (Nat × Nat) → FlatBufferBuilder
  | [] => b
  | p :: rest => add_nested_offsets (b.AddOffset p.1 p.2) rest

/-- The body of `encode_table` up to, and not including, the call of `EndTable`: the
nested loop, `StartTable`, the scalar loop and the loop of `AddOffset`. The second
component is the local `start`. When the step does not exit, its builder holds the
table scope as `EndTable` will find it. -/
def encode_table_scope (env : Env) (index : Nat) (seq : sequence) (L : lua_State)
    (self : lflatbuffers) : Step × Nat :=
  if !env.ndebug && seq.object.is_struct then (⟨some .aborted, L, self⟩, 0)
  else
    let n := encode_table_nested env index seq.nested [] L self
    match n.1.exit with
    | some o => (⟨some o, n.1.L, n.1.self⟩, 0)
    | none =>
      let st := n.1.self._fbb.StartTable
      let s := encode_table_scalar env index seq.scalar n.1.L { n.1.self with _fbb := st.1 }
      match s.exit with
      | some o => (⟨some o, s.L, s.self⟩, st.2)
      | none => (⟨none, s.L, { s.self with _fbb := add_nested_offsets s.self._fbb n.2 }⟩, st.2)

/-- The method `lflatbuffers::encode_table`. The second component is the value assigned
to the reference `offset`, `none` when the call ends before the assignment. -/
def encode_table (env : Env) (index : Nat) (seq : sequence) (L : lua_State)
    (self : lflatbuffers) : Result × Option Nat :=
  let p := encode_table_scope env index seq L self
  match p.1.exit with
  | some o => (⟨o, p.1.L, p.1.self⟩, none)
  | none =>
    let e := p.1.self._fbb.EndTable p.2 seq.object.fields.length
    (⟨.returned 0, p.1.L, { p.1.self with _fbb := e.1 }⟩, some e.2)

/-! ## `encode` -/

/-- The method `lflatbuffers::encode`. -/
def encode (env : Env) (schema object : String) (index : Nat) (L : lua_State)
    (self : lflatbuffers) : Result :=
  match self._schema.lookup schema with
  | none =>
    ⟨.returned (-1), L,
      { self with _error_collector := { self._error_collector with what := "no such schema" } }⟩
  | some sequences =>
    match sequences.lookup object with
    | none =>
      ⟨.returned (-1), L,
        { self with _error_collector :=
            { self._error_collector with
              what := "no such object(" ++ object ++ ") at schema(" ++ schema ++ ")." } }⟩
    | some seq =>
      let r := encode_object env index seq L { self with _fbb := self._fbb.Clear }
      match r.1.outcome with
      | .returned v =>
        if v < 0 then
          ⟨.returned (-1), r.1.L,
            { r.1.self with _error_collector :=
                { r.1.self._error_collector with schema := schema } }⟩
        else
          ⟨.returned 0, r.1.L, { r.1.self with _fbb := r.1.self._fbb.Finish r.2 }⟩
      | o => ⟨o, r.1.L, r.1.self⟩

end lflatbuffers

/-! ## Classification of fields, as the specification words it -/

/-- A nested-object field: the base type is `Obj`, or it is a `Vector` whose element
type is `Obj`. -/
def is_nested_field (f : Field) : Bool :=
  f.type.base_type == .Obj || (f.type.base_type == .Vector && f.type.element == .Obj)

/-- Every other field with a base type: scalars, bool, string, union, utype and vectors
of non-objects. -/
def is_scalar_field (f : Field) : Bool :=
  !is_nested_field f && f.type.base_type != .None

/-- The object-reference graph of a schema is acyclic: the Objects can be ranked so that
each nested-object field refers to an Object of the schema of strictly smaller rank. -/
def Acyclic (schema : Schema) : Prop :=
  ∃ rank : Object → Nat, ∀ o ∈ schema.objects, ∀ f ∈ o.fields, is_nested_field f = true →
    ∃ sub, Schema_objects_Get schema f.type.index = .ok sub ∧ rank sub < rank o

/-- No field of the schema has base type `None`. -/
def NoneFree (schema : Schema) : Prop :=
  ∀ o ∈ schema.objects, ∀ f ∈ o.fields, f.type.base_type ≠ .None

/-- The field is present in a table value: its entry is not `nil`. -/
def is_present (entries : List (String × LuaValue)) (f : Field) : Bool :=
  match table_get f.name entries with
  | .nil => false
  | _ => true

/-- The truth value Lua gives a value: everything but `nil` and `false` is true. -/
def truthy : LuaValue → Bool
  | .nil => false
  | .boolean b => b
  | _ => true

/-- Whether `encode_table` leaves a field location for the scalar field `f` of a table
value: `f` is a present `Bool` field and its value is true, or defaults are forced. -/
def records_slot (entries : List (String × LuaValue)) (force_defaults : Bool) (f : Field) :
    Bool :=
  f.type.base_type == .Bool && is_present entries f &&
    (truthy (table_get f.name entries) || force_defaults)

/-! ## Sample schemas and values -/

/-- Reads a run of decimal digits. -/
def digits_value : List Char → Nat → Option Nat
  | [], acc => some acc
  | c :: cs, acc =>
    if c.isDigit then digits_value cs (10 * acc + (c.toNat - 48)) else none

/-- A string-to-number coercion that accepts decimal integers. -/
def decimal_str2number (s : String) : Option Int :=
  match s.data with
  | [] => none
  | '-' :: cs => if cs.isEmpty then none else (digits_value cs 0).map (fun n => -(n : Int))
  | cs => (digits_value cs 0).map Int.ofNat

/-- A platform for the examples: decimal coercion, and float bit patterns that are not
looked at; `ndebug` chooses the build. -/
def sample_env (ndebug : Bool) : Env := ⟨ndebug, decimal_str2number, fun _ => 0, fun _ => 0⟩

/-- A builder that has not been used. -/
def fresh_builder : FlatBufferBuilder := ⟨[], 0, 1, false, false, [], [], false, []⟩

/-- The type of a 32-bit integer field. -/
def int_type : Type_ := ⟨.Int, .None, -1⟩

/-- Field `x` of the struct `Vec`, at byte offset 0. -/
def vec_x : Field := ⟨"x", int_type, 0⟩

/-- Field `y` of the struct `Vec`, at byte offset 4. -/
def vec_y : Field := ⟨"y", int_type, 4⟩

/-- The struct `Vec { x:int; y:int; }`. -/
def Vec : Object := ⟨"Vec", [vec_x, vec_y], true, 4, 8⟩

/-- The build sequence of `Vec`. -/
def vec_sequence : sequence := .mk none Vec [] [vec_x, vec_y]

/-- Field `x` of the table `Point`, at vtable slot 4. -/
def point_x : Field := ⟨"x", int_type, 4⟩

/-- Field `y` of the table `Point`, at vtable slot 6. -/
def point_y : Field := ⟨"y", int_type, 6⟩

/-- The table `Point { x:int; y:int; }`. -/
def Point : Object := ⟨"Point", [point_x, point_y], false, 1, 0⟩

/-- The build sequence of `Point`. -/
def point_sequence : sequence := .mk none Point [] [point_x, point_y]

/-- An engine in which the schema `geo` is loaded with `Vec` and `Point`. -/
def geo_engine : lflatbuffers :=
  ⟨[], [("geo", [("Point", point_sequence), ("Vec", vec_sequence)])], ⟨"", "", []⟩,
    fresh_builder⟩

/-- The Lua stack of the binding function `encode` when it calls the method: the engine
userdata, the schema name and the object name (their content is not read), and the
value at index 4. -/
def call_stack (value : LuaValue) : lua_State :=
  ⟨[.nil, .string "geo", .string "obj", value]⟩

/-- Field `name` of the table `Label`, a string at vtable slot 4. -/
def label_name : Field := ⟨"name", ⟨.String, .None, -1⟩, 4⟩

/-- Field `visible` of the table `Label`, a bool at vtable slot 6. -/
def label_visible : Field := ⟨"visible", ⟨.Bool, .None, -1⟩, 6⟩

/-- The table `Label { name:string; visible:bool; }`. -/
def Label : Object := ⟨"Label", [label_name, label_visible], false, 1, 0⟩

/-- The build sequence of `Label`. -/
def label_sequence : sequence := .mk none Label [] [label_name, label_visible]

/-- The value `{name = "abc", visible = true}`. -/
def label_value : List (String × LuaValue) :=
  [("name", .string "abc"), ("visible", .boolean true)]

/-- Field `pos` of the table `Monster`: the struct `Vec`, object 1 of the schema. -/
def monster_pos : Field := ⟨"pos", ⟨.Obj, .None, 1⟩, 8⟩

/-- Field `hp` of the table `Monster`, a 16-bit integer. -/
def monster_hp : Field := ⟨"hp", ⟨.Short, .None, -1⟩, 4⟩

/-- Field `path` of the table `Monster`: a vector of `Vec`. -/
def monster_path : Field := ⟨"path", ⟨.Vector, .Obj, 1⟩, 10⟩

/-- Field `name` of the table `Monster`, a string. -/
def monster_name : Field := ⟨"name", ⟨.String, .None, -1⟩, 6⟩

/-- The table `Monster { hp:short; name:string; path:[Vec]; pos:Vec; }`, its fields in
the order of the reflected schema. -/
def Monster : Object :=
  ⟨"Monster", [monster_hp, monster_name, monster_path, monster_pos], false, 1, 0⟩

/-- The schema with the objects `Monster` and `Vec`. -/
def monster_schema : Schema := ⟨[Monster, Vec]⟩

/-- A ranking of the objects of `monster_schema`: structs below tables. -/
def monster_rank (o : Object) : Nat := if o.is_struct then 0 else 1

/-! ## Frames -/

/-- The engine `self` with the error collector replaced by `ec` and the bytes `stores`
stored in the arena: what a call leaves that touches nothing else. -/
def lflatbuffers.frame (self : lflatbuffers) (ec : error_collector)
    (stores : List (Int × Option Nat)) : lflatbuffers :=
  { self with
    _error_collector := ec,
    _fbb := { self._fbb with buf := stores ++ self._fbb.buf } }

/-- The entries that `WriteScalar` at `p` puts in front of `buf`. -/
def write_stores (p : Int) (w bits : Nat) : List (Int × Option Nat) :=
  (((little_endian w bits).map some).enum.map (fun ib => (p + (ib.1 : Int), ib.2))).reverse

/-! ## Schema files -/

/-- The UTF-8 encoding of a character: the bytes a C string holds for it. -/
def utf8_bytes (c : Char) : List Nat :=
  let n := c.toNat
  if n < 128 then [n]
  else if n < 2048 then [192 + n / 64, 128 + n % 64]
  else if n < 65536 then [224 + n / 4096, 128 + n / 64 % 64, 128 + n % 64]
  else [240 + n / 262144, 128 + n / 4096 % 64, 128 + n / 64 % 64, 128 + n % 64]

/-- A string as C sees it: its bytes up to the first zero byte. -/
def c_str (s : String) : List Nat :=
  (s.data.flatMap utf8_bytes).takeWhile (fun b => b != 0)

/-- The function `is_postfix_file`. `strlen` is the number of bytes of a C string, the
dot is the byte 46, and `strcmp` compares the bytes that follow it with those of the
ending; `suffix` is the parameter the source calls by the name of the file-name ending
it looks for. The result is the `int` returned. -/
def is_postfix_file (path suffix : String) : Int :=
  let sz := (c_str suffix).length
  let ps := (c_str path).length
  if ps ≤ sz + 2 then 0
  else if (c_str path)[ps - sz - 1]? = some 46
      ∧ (c_str path).drop (ps - sz) = c_str suffix then 1
  else 0

/-! ## More sample schemas -/

/-- Field `a` of the struct `Inner`. -/
def inner_a : Field := ⟨"a", int_type, 0⟩

/-- The struct `Inner { a:int; }`, object 0 of its schema. -/
def Inner : Object := ⟨"Inner", [inner_a], true, 4, 4⟩

/-- Field `inner` of the struct `Outer`. -/
def outer_inner : Field := ⟨"inner", ⟨.Obj, .None, 0⟩, 0⟩

/-- The struct `Outer { inner:Inner; }`. -/
def Outer : Object := ⟨"Outer", [outer_inner], true, 4, 4⟩

/-- The build sequence of `Outer`, as `make_object_sequence` compiles it. -/
def outer_sequence : sequence :=
  .mk none Outer [.mk (some outer_inner) Inner [] [inner_a]] []

/-- Field `a` of the struct `Flags`. -/
def flags_a : Field := ⟨"a", ⟨.Bool, .None, -1⟩, 0⟩

/-- Field `b` of the struct `Flags`. -/
def flags_b : Field := ⟨"b", ⟨.Bool, .None, -1⟩, 1⟩

/-- The struct `Flags { a:bool; b:bool; }`, object 0 of its schema. -/
def Flags : Object := ⟨"Flags", [flags_a, flags_b], true, 1, 2⟩

/-- Field `flags` of the table `Holder`, at vtable slot 4. -/
def holder_flags : Field := ⟨"flags", ⟨.Obj, .None, 0⟩, 4⟩

/-- The table `Holder { flags:Flags; }`. -/
def Holder : Object := ⟨"Holder", [holder_flags], false, 1, 0⟩

/-- The build sequence of `Flags` as a nested entry of `Holder`. -/
def holder_flags_sequence : sequence := .mk (some holder_flags) Flags [] [flags_a, flags_b]

/-- The build sequence of `Holder`. -/
def holder_sequence : sequence := .mk none Holder [holder_flags_sequence] []

/-- The value `{a = false, b = false}`. -/
def flags_off : LuaValue := .table [("a", .boolean false), ("b", .boolean false)]

/-! ## The registry: `make_build_sequence`, `load_bfbs_file`, `load_bfbs_path` -/

/-- The map operation `m[k] = v` on an association list: the entry of `k` is replaced
where it stands, or appended when there is none. -/
def map_set {β : Type} (k : String) (v : β) : List (String × β) → List (String × β)
  | [] => [(k, v)]
  | (k1, v1) :: rest => if k1 = k then (k, v) :: rest else (k1, v1) :: map_set k v rest

/-- The map operation `erase( k )`. -/
def map_erase {β : Type} (k : String) : List (String × β) → List (String × β)
  | [] => []
  | (k1, v1) :: rest => if k1 = k then map_erase k rest else (k1, v1) :: map_erase k rest

/-- The loop of `make_build_sequence` over the objects that remain; `sequences` is the
map `schema_sequence`. The entry `schema_sequence[name]` is the one already there, or
a fresh one; its `object` is set and `make_object_sequence` fills it. -/
def make_build_sequence_loop (env : Env) (schema : Schema) (fuel : Nat) :
    List Object → List (String × sequence) → Except Halt (List (String × sequence))
  | [], sequences => .ok sequences
  | object :: rest, sequences =>
    let seq : sequence :=
      match sequences.lookup object.name with
      | some old => .mk old.field object old.nested old.scalar
      | none => .mk none object [] []
    match make_object_sequence env schema fuel seq object with
    | .ok out => make_build_sequence_loop env schema fuel rest (map_set object.name out sequences)
    | .error h => .error h

/-- The method `lflatbuffers::make_build_sequence`: the entry of `schema_name` is
cleared and filled with one sequence for each object. `fuel` bounds the recursion of
each call of `make_object_sequence`. -/
def lflatbuffers.make_build_sequence (env : Env) (fuel : Nat) (schema_name : String)
    (schema : Schema) (self : lflatbuffers) : Except Halt lflatbuffers :=
  match make_build_sequence_loop env schema fuel schema.objects [] with
  | .ok sequences => .ok { self with _schema := map_set schema_name sequences self._schema }
  | .error h => .error h

/-- The world outside the engine that loading reads: `LoadFile` gives the content of a
file that can be read, `VerifySchemaBuffer` tells whether a content is a valid binary
schema and `GetSchema` reads it; `strerror` is the text of `strerror( errno )` after a
failure on a path; `opendir` lists the names `readdir` returns for a directory that can
be opened; `is_regular` is the test `S_ISREG` on the result of `stat`. -/
structure Host where
  LoadFile : String → Option String
  VerifySchemaBuffer : String → Bool
  GetSchema : String → Schema
  strerror : String → String
  opendir : String → Option (List String)
  is_regular : String → Bool

/-- The method `lflatbuffers::load_bfbs_file`. The file is loaded into the buffer
stored under its name, so the buffer stored before is overwritten; when the load or the
verification fails the entry is erased. -/
def lflatbuffers.load_bfbs_file (env : Env) (host : Host) (fuel : Nat) (file : String)
    (self : lflatbuffers) : Except Halt (Bool × lflatbuffers) :=
  match host.LoadFile file with
  | none =>
    .ok (false,
      { self with
        _bfbs_buffer := map_erase file self._bfbs_buffer,
        _error_collector :=
          { self._error_collector with
            what := "can not load file:" ++ file ++ "," ++ host.strerror file } })
  | some bfbs =>
    if !host.VerifySchemaBuffer bfbs then
      .ok (false,
        { self with
          _bfbs_buffer := map_erase file self._bfbs_buffer,
          _error_collector :=
            { self._error_collector with
              what := "invalid flatbuffers binary schema file:" ++ file } })
    else
      match lflatbuffers.make_build_sequence env fuel file (host.GetSchema bfbs)
          { self with _bfbs_buffer := map_set file bfbs self._bfbs_buffer } with
      | .ok self1 => .ok (true, self1)
      | .error h => .error h

/-- The loop of `load_bfbs_path` over the names that `readdir` has yet to return. -/
def load_bfbs_path_loop (env : Env) (host : Host) (fuel : Nat) (suffix : String) :
    List String → Int → lflatbuffers → Except Halt (Int × lflatbuffers)
  | [], count, self => .ok (count, self)
  | d_name :: rest, count, self =>
    if host.is_regular d_name && is_postfix_file d_name suffix != 0 then
      match lflatbuffers.load_bfbs_file env host fuel d_name self with
      | .ok (true, self1) => load_bfbs_path_loop env host fuel suffix rest (count + 1) self1
      | .ok (false, self1) => .ok (-1, { self1 with _bfbs_buffer := [] })
      | .error h => .error h
    else load_bfbs_path_loop env host fuel suffix rest count self

/-- The method `lflatbuffers::load_bfbs_path`. -/
def lflatbuffers.load_bfbs_path (env : Env) (host : Host) (fuel : Nat) (path suffix : String)
    (self : lflatbuffers) : Except Halt (Int × lflatbuffers) :=
  match host.opendir path with
  | none =>
    .ok (-1,
      { self with _error_collector :=
          { self._error_collector with
            what := "can not open directory:" ++ path ++ "," ++ host.strerror path } })
  | some names => load_bfbs_path_loop env host fuel suffix names 0 self
/-- A host for the examples: the directory `schemas` holds `ab.bfbs`, a valid schema
file, and `cd.bfbs`, which is not one; no other file can be read. -/
def sample_host : Host where
  LoadFile := fun f =>
    if f = "ab.bfbs" then some "MONSTER" else if f = "cd.bfbs" then some "junk" else none
  VerifySchemaBuffer := fun b => b == "MONSTER" || b == "GEO"
  GetSchema := fun b => if b = "MONSTER" then monster_schema else ⟨[Point, Vec]⟩
  strerror := fun _ => "No such file or directory"
  opendir := fun p => if p = "schemas" then some [".", "..", "ab.bfbs", "cd.bfbs"] else none
  is_regular := fun n => n != "." && n != ".."

/-- An engine in which the schema file `geo.bfbs` was loaded by an earlier call. -/
def loaded_engine : lflatbuffers :=
  ⟨[("geo.bfbs", "GEO")], [("geo.bfbs", [("Point", point_sequence), ("Vec", vec_sequence)])],
    ⟨"", "", []⟩, fresh_builder⟩

/-- An edge of the object-reference graph: some nested-object field of `a` refers to `b`. -/
def Reaches (schema : Schema) (a b : Object) : Prop :=
  ∃ f ∈ a.fields, is_nested_field f = true ∧ Schema_objects_Get schema f.type.index = .ok b

/-- Field `next` of the table `Node`, which refers to `Node` itself. -/
def node_next : Field := ⟨"next", ⟨.Obj, .None, 0⟩, 4⟩

/-- The table `Node { next:Node; }`. -/
def Node : Object := ⟨"Node", [node_next], false, 1, 0⟩

/-- The schema whose only object is `Node`. -/
def node_schema : Schema := ⟨[Node]⟩

/-! ## The calls of a table encoding -/

/-- The bytes `GetBufferPointer()` exposes: the `size` bytes from `buf_.data()` to the
end of the buffer; a byte is `none` when nothing determinate was ever stored there. -/
def finished_buffer (b : FlatBufferBuilder) : List (Option Nat) :=
  (List.range b.size).map (fun i => b.read_byte (-(b.size : Int) + (i : Int)))

/-- Two builders agree on everything the builder keeps track of, and the same bytes
`stores` were stored on top of the memories `p1` and `p2`. -/
def Agree (p1 p2 : List (Int × Option Nat)) (b1 b2 : FlatBufferBuilder) : Prop :=
  b1.size = b2.size ∧ b1.minalign = b2.minalign ∧ b1.nested = b2.nested
    ∧ b1.finished = b2.finished ∧ b1.offsetbuf = b2.offsetbuf ∧ b1.vtables = b2.vtables
    ∧ ∃ stores, b1.buf = stores ++ p1 ∧ b2.buf = stores ++ p2

/-- Field `n` of the struct `Padded`, a 32-bit integer at byte offset 0. -/
def padded_n : Field := ⟨"n", int_type, 0⟩

/-- Field `on` of the struct `Padded`, a bool at byte offset 4; the bytes 5 to 7 of the
struct are padding. -/
def padded_on : Field := ⟨"on", ⟨.Bool, .None, -1⟩, 4⟩

/-- The struct `Padded { n:int; on:bool; }`. -/
def Padded : Object := ⟨"Padded", [padded_n, padded_on], true, 4, 8⟩

/-- An engine in which the schema `pad` is loaded with the structs `Flags` and
`Padded`. -/
def pad_engine : lflatbuffers :=
  ⟨[], [("pad", [("Flags", .mk none Flags [] [flags_a, flags_b]),
      ("Padded", .mk none Padded [] [padded_n, padded_on])])], ⟨"", "", []⟩, fresh_builder⟩

/-- The engine `pad_engine` after a call of `encode` for `Flags` with the value
`{a = true, b = true}`. -/
def pad_engine_used (ndebug : Bool) : lflatbuffers :=
  (lflatbuffers.encode (sample_env ndebug) "pad" "Flags" 4
    (call_stack (.table [("a", .boolean true), ("b", .boolean true)])) pad_engine).self

/-! ## The calls of the table loops -/

/-- A nested entry whose field is present in the table value `entries`. -/
def nested_present (entries : List (String × LuaValue)) (sub : sequence) : Bool :=
  match sub.field with
  | some f => is_present entries f
  | none => false

/-! ## Files of a scan -/

/-- The files `load_bfbs_path` hands to `load_bfbs_file`: regular files whose name
`is_postfix_file` accepts. -/
def Host.is_schema_file (host : Host) (suffix d_name : String) : Bool :=
  host.is_regular d_name && is_postfix_file d_name suffix != 0

/-- The files on which `load_bfbs_file` fails: the files that cannot be read and those
whose content fails the verification. -/
def Host.load_fails (host : Host) (file : String) : Bool :=
  match host.LoadFile file with
  | none => true
  | some buf => !host.VerifySchemaBuffer buf

/-- The schema files for which `make_build_sequence` returns, within `fuel` nested
calls of `make_object_sequence`. -/
def Host.compiles (host : Host) (env : Env) (fuel : Nat) (file : String) : Bool :=
  match host.LoadFile file with
  | none => false
  | some buf =>
    match make_build_sequence_loop env (host.GetSchema buf) fuel (host.GetSchema buf).objects
        [] with
    | .ok _ => true
    | .error _ => false

/-! ## Failures of `encode_struct` and the result of `encode` -/

/-- C1, evaluated on the struct `Vec` and the value `{}`: `encode_struct` returns `-1`
with the error `missing required field` and `x` on the backtrace, yet `encode` returns
`0` and goes on to `EndStruct` and `Finish`; the failure does not reach the caller. -/
theorem C1_missing_field_failure_is_dropped (env : Env) :
    (lflatbuffers.encode_struct env (-8) 4 vec_sequence (call_stack (.table []))
        geo_engine).outcome = .returned (-1)
    ∧ (lflatbuffers.encode env "geo" "Vec" 4 (call_stack (.table [])) geo_engine).outcome
        = .returned 0
    ∧ (lflatbuffers.encode env "geo" "Vec" 4 (call_stack (.table []))
        geo_engine).self._error_collector = ⟨"missing required field", "", ["x"]⟩
    ∧ (lflatbuffers.encode env "geo" "Vec" 4 (call_stack (.table []))
        geo_engine).self._fbb.calls
        = [.Clear, .StartStruct 4, .ReserveElements 8 1, .EndStruct, .Finish (some 8)] := by
  obtain ⟨nd, s2n, fb, db⟩ := env
  cases nd <;> exact ⟨rfl, rfl, rfl, rfl⟩

/-- C2, evaluated on the struct `Vec` and the value `{x = 1, y = 2}`, every field present
and holding a number: `encode_struct` returns `-1` with the error `expect number,got`
followed by `number`, and stores no byte at all. -/
theorem C2_integer_fields_holding_numbers_fail (env : Env) :
    (lflatbuffers.encode_struct env (-8) 4 vec_sequence
        (call_stack (.table [("x", .number 1), ("y", .number 2)])) geo_engine).outcome
        = .returned (-1)
    ∧ (lflatbuffers.encode_struct env (-8) 4 vec_sequence
        (call_stack (.table [("x", .number 1), ("y", .number 2)]))
        geo_engine).self._error_collector = ⟨"expect number,gotnumber", "", ["x"]⟩
    ∧ (lflatbuffers.encode_struct env (-8) 4 vec_sequence
        (call_stack (.table [("x", .number 1), ("y", .number 2)])) geo_engine).self._fbb.buf
        = [] := by
  obtain ⟨nd, s2n, fb, db⟩ := env
  cases nd <;> exact ⟨rfl, rfl, rfl⟩

/-- C3, evaluated on the struct `Vec`: the number `1` supplied for the integer field `x`
is rejected with `expect number,got` and `x` on the backtrace, while the boolean `true`
supplied for `x` and `y` is accepted, the call returning `0` with no error recorded and
the four bytes of `x` stored as zero. -/
theorem C3_number_test_is_inverted_in_struct (ndebug : Bool) :
    (lflatbuffers.encode_struct (sample_env ndebug) (-8) 4 vec_sequence
        (call_stack (.table [("x", .number 1), ("y", .boolean true)])) geo_engine).outcome
        = .returned (-1)
    ∧ (lflatbuffers.encode_struct (sample_env ndebug) (-8) 4 vec_sequence
        (call_stack (.table [("x", .number 1), ("y", .boolean true)]))
        geo_engine).self._error_collector = ⟨"expect number,gotnumber", "", ["x"]⟩
    ∧ (lflatbuffers.encode_struct (sample_env ndebug) (-8) 4 vec_sequence
        (call_stack (.table [("x", .boolean true), ("y", .boolean true)])) geo_engine).outcome
        = .returned 0
    ∧ (lflatbuffers.encode_struct (sample_env ndebug) (-8) 4 vec_sequence
        (call_stack (.table [("x", .boolean true), ("y", .boolean true)]))
        geo_engine).self._error_collector = ⟨"", "", []⟩
    ∧ (lflatbuffers.encode_struct (sample_env ndebug) (-8) 4 vec_sequence
        (call_stack (.table [("x", .boolean true), ("y", .boolean true)]))
        geo_engine).self._fbb.ReadScalar (-8) 4 = some 0 := by
  cases ndebug <;> decide

/-- In `encode_struct`, the store of an integer or float field is refused exactly when
`lua_isnumber` holds for the value at `index + 1`. -/
theorem SET_NUMBER_exit_iff (env : Env) (bt : BaseType) (data : Int) (index : Nat)
    (fld : Field) (L : lua_State) (self : lflatbuffers) :
    (lflatbuffers.SET_NUMBER env bt data index fld L self).exit = some (.returned (-1))
      ↔ lua_isnumber env L (index + 1) = true := by
  unfold lflatbuffers.SET_NUMBER
  cases h : lua_isnumber env L (index + 1) <;> simp

/-! ## Failures of `encode_table` -/

/-- C4, evaluated on the table `Point`: encoding `{x = 3}` returns `-1` with the error
`expect number,got` followed by `number` and `x` on the backtrace, while encoding
`{x = true, y = true}`, whose values are no numbers, returns `0`, the element `0`
being added at the slots of `x` and `y`; the string `"3"`, which Lua converts to a
number, is rejected for the same reason as the number `3`. -/
theorem C4_number_test_is_inverted_in_table (ndebug : Bool) :
    (lflatbuffers.encode_table (sample_env ndebug) 4 point_sequence
        (call_stack (.table [("x", .number 3)])) geo_engine).1.outcome = .returned (-1)
    ∧ (lflatbuffers.encode_table (sample_env ndebug) 4 point_sequence
        (call_stack (.table [("x", .number 3)])) geo_engine).1.self._error_collector
        = ⟨"expect number,gotnumber", "", ["x"]⟩
    ∧ (lflatbuffers.encode_table (sample_env ndebug) 4 point_sequence
        (call_stack (.table [("x", .boolean true), ("y", .boolean true)]))
        geo_engine).1.outcome = .returned 0
    ∧ (lflatbuffers.encode_table (sample_env ndebug) 4 point_sequence
        (call_stack (.table [("x", .boolean true), ("y", .boolean true)]))
        geo_engine).1.self._fbb.calls
        = [.StartTable, .AddElement .Int 4 0, .AddElement .Int 6 0, .EndTable 0 2]
    ∧ (lflatbuffers.encode_table (sample_env ndebug) 4 point_sequence
        (call_stack (.table [("x", .string "3")])) geo_engine).1.outcome = .returned (-1)
    ∧ (lflatbuffers.encode_table (sample_env ndebug) 4 point_sequence
        (call_stack (.table [("x", .string "3")])) geo_engine).1.self._error_collector
        = ⟨"expect number,gotstring", "", ["x"]⟩ := by
  cases ndebug <;> decide

/-- In `encode_table`, an integer or float field is refused exactly when `lua_isnumber`
holds for the value at `index + 1`. -/
theorem ADD_NUMBER_exit_iff (env : Env) (bt : BaseType) (off index : Nat)
    (fld : Field) (L : lua_State) (self : lflatbuffers) :
    (lflatbuffers.ADD_NUMBER env bt off index fld L self).exit = some (.returned (-1))
      ↔ lua_isnumber env L (index + 1) = true := by
  unfold lflatbuffers.ADD_NUMBER
  cases h : lua_isnumber env L (index + 1) <;> simp

/-! ## Absent fields of a table -/

/-- C5, evaluated. On the table `Point` and the value `{z = 1}`, in which `x` and `y`
are absent, `encode_table` goes on with the iteration of `x` after popping the `nil`:
it adds the element `0` at the slot of `x` and pops the value itself, and the
`lua_getfield` of `y` then raises a Lua error, the stack being one lower than on entry.
On the table `Label` and the value `{name = "abc"}` the call returns `0`, an element
was added at the slot of the absent field `visible`, and the stack is one lower than on
entry. On the table `Holder` and the value `{a = true, b = true}` the call returns
`0`, the absent nested field `flags` was encoded by `encode_object` and its pair added
at slot 4, and the stack is one lower than on entry. -/
theorem C5_absent_field_is_not_skipped (ndebug : Bool) :
    (point_sequence.scalar.map (is_present [("z", .number 1)])) = [false, false]
    ∧ (lflatbuffers.encode_table (sample_env ndebug) 4 point_sequence
        (call_stack (.table [("z", .number 1)])) geo_engine).1.outcome = .lua_error
    ∧ (lflatbuffers.encode_table (sample_env ndebug) 4 point_sequence
        (call_stack (.table [("z", .number 1)])) geo_engine).1.self._fbb.calls
        = [.StartTable, .AddElement .Int 4 0]
    ∧ (call_stack (.table [("z", .number 1)])).stack.length = 4
    ∧ (lflatbuffers.encode_table (sample_env ndebug) 4 point_sequence
        (call_stack (.table [("z", .number 1)])) geo_engine).1.L.stack.length = 3
    ∧ is_present [("name", .string "abc")] label_visible = false
    ∧ (lflatbuffers.encode_table (sample_env ndebug) 4 label_sequence
        (call_stack (.table [("name", .string "abc")])) geo_engine).1.outcome = .returned 0
    ∧ (lflatbuffers.encode_table (sample_env ndebug) 4 label_sequence
        (call_stack (.table [("name", .string "abc")])) geo_engine).1.self._fbb.calls
        = [.StartTable, .AddElement .UByte 6 0, .EndTable 0 2]
    ∧ (lflatbuffers.encode_table (sample_env ndebug) 4 label_sequence
        (call_stack (.table [("name", .string "abc")])) geo_engine).1.L.stack.length = 3
    ∧ holder_sequence.nested.map (nested_present [("a", .boolean true), ("b", .boolean true)])
        = [false]
    ∧ (lflatbuffers.encode_table (sample_env ndebug) 4 holder_sequence
        (call_stack (.table [("a", .boolean true), ("b", .boolean true)]))
        geo_engine).1.outcome = .returned 0
    ∧ (lflatbuffers.encode_table (sample_env ndebug) 4 holder_sequence
        (call_stack (.table [("a", .boolean true), ("b", .boolean true)]))
        geo_engine).1.self._fbb.calls
        = [.StartStruct 1, .ReserveElements 2 1, .EndStruct, .StartTable, .AddOffset 4 2,
            .EndTable 2 1]
    ∧ (lflatbuffers.encode_table (sample_env ndebug) 4 holder_sequence
        (call_stack (.table [("a", .boolean true), ("b", .boolean true)]))
        geo_engine).1.L.stack.length = 3 := by
  cases ndebug <;> decide

/-! ## The Lua stack: one push, one pop -/

theorem index2value_push_top (L : lua_State) (v : LuaValue) :
    index2value (lua_push L v) (L.stack.length + 1) = some v := by
  simp [index2value, lua_push]

theorem index2value_push_below (L : lua_State) (v : LuaValue) (idx : Nat)
    (h : idx ≤ L.stack.length) : index2value (lua_push L v) idx = index2value L idx := by
  unfold index2value lua_push
  by_cases h0 : idx = 0
  · simp [h0]
  · simp only [h0, if_false]
    rw [List.getElem?_append_left (by omega)]

theorem lua_pop_push (L : lua_State) (v : LuaValue) : lua_pop (lua_push L v) 1 = L := by
  cases L
  simp [lua_pop, lua_push]

theorem lua_getfield_table (L : lua_State) (idx : Nat) (k : String)
    (entries : List (String × LuaValue)) (h : index2value L idx = some (.table entries)) :
    lua_getfield L idx k = some (lua_push L (table_get k entries)) := by
  simp [lua_getfield, h]

theorem lua_isnil_push_top (L : lua_State) (v : LuaValue) :
    lua_isnil (lua_push L v) (L.stack.length + 1) = true ↔ v = .nil := by
  rw [lua_isnil, index2value_push_top]
  cases v <;> simp

theorem is_present_eq_false (entries : List (String × LuaValue)) (f : Field) :
    is_present entries f = false ↔ table_get f.name entries = .nil := by
  unfold is_present
  cases table_get f.name entries <;> simp

/-! ## The history of calls -/

@[simp] theorem store_calls (b : FlatBufferBuilder) (p : Int) (bs : List (Option Nat)) :
    (b.store p bs).calls = b.calls := rfl

@[simp] theorem WriteScalar_calls (b : FlatBufferBuilder) (p : Int) (w bits : Nat) :
    (b.WriteScalar p w bits).calls = b.calls := rfl

@[simp] theorem make_space_calls (b : FlatBufferBuilder) (n : Nat) :
    (b.make_space n).1.calls = b.calls := rfl

@[simp] theorem fill_calls (b : FlatBufferBuilder) (n : Nat) : (b.fill n).calls = b.calls := rfl

@[simp] theorem Align_calls (b : FlatBufferBuilder) (n : Nat) : (b.Align n).calls = b.calls := by
  unfold FlatBufferBuilder.Align
  split <;> rfl

@[simp] theorem PushBytes_calls (b : FlatBufferBuilder) (w : Nat) (bs : List (Option Nat)) :
    (b.PushBytes w bs).1.calls = b.calls := by
  simp [FlatBufferBuilder.PushBytes]

@[simp] theorem PushElement_calls (b : FlatBufferBuilder) (w bits : Nat) :
    (b.PushElement w bits).1.calls = b.calls := by
  simp [FlatBufferBuilder.PushElement]

@[simp] theorem store_offsetbuf (b : FlatBufferBuilder) (p : Int) (bs : List (Option Nat)) :
    (b.store p bs).offsetbuf = b.offsetbuf := rfl

@[simp] theorem store_force_defaults (b : FlatBufferBuilder) (p : Int) (bs : List (Option Nat)) :
    (b.store p bs).force_defaults = b.force_defaults := rfl

@[simp] theorem make_space_offsetbuf (b : FlatBufferBuilder) (n : Nat) :
    (b.make_space n).1.offsetbuf = b.offsetbuf := rfl

@[simp] theorem make_space_force_defaults (b : FlatBufferBuilder) (n : Nat) :
    (b.make_space n).1.force_defaults = b.force_defaults := rfl

@[simp] theorem Align_offsetbuf (b : FlatBufferBuilder) (n : Nat) :
    (b.Align n).offsetbuf = b.offsetbuf := by
  unfold FlatBufferBuilder.Align
  split <;> rfl

@[simp] theorem Align_force_defaults (b : FlatBufferBuilder) (n : Nat) :
    (b.Align n).force_defaults = b.force_defaults := by
  unfold FlatBufferBuilder.Align
  split <;> rfl

@[simp] theorem PushElement_offsetbuf (b : FlatBufferBuilder) (w bits : Nat) :
    (b.PushElement w bits).1.offsetbuf = b.offsetbuf := by
  simp [FlatBufferBuilder.PushElement, FlatBufferBuilder.PushBytes]

@[simp] theorem PushElement_force_defaults (b : FlatBufferBuilder) (w bits : Nat) :
    (b.PushElement w bits).1.force_defaults = b.force_defaults := by
  simp [FlatBufferBuilder.PushElement, FlatBufferBuilder.PushBytes]

theorem AddElement_force_defaults (env : Env) (b : FlatBufferBuilder) (T : BaseType)
    (field : Nat) (val : Int) :
    (b.AddElement env T field val).force_defaults = b.force_defaults := by
  unfold FlatBufferBuilder.AddElement FlatBufferBuilder.AddBits
  split <;> simp [FlatBufferBuilder.record]

/-- The slots tracked after `AddElement`: the slot is appended unless the element is the
default and defaults are not forced. -/
theorem AddElement_slots (env : Env) (b : FlatBufferBuilder) (T : BaseType)
    (field : Nat) (val : Int) :
    (b.AddElement env T field val).offsetbuf.map Prod.snd
      = b.offsetbuf.map Prod.snd
        ++ (if scalar_is_zero T val && !b.force_defaults then [] else [field]) := by
  unfold FlatBufferBuilder.AddElement FlatBufferBuilder.AddBits
  by_cases h : (scalar_is_zero T val && !(b.record (.AddElement T field val)).force_defaults) = true
  · have h2 : (scalar_is_zero T val && !b.force_defaults) = true := h
    simp [h, h2, FlatBufferBuilder.record]
  · have h2 : ¬ (scalar_is_zero T val && !b.force_defaults) = true := h
    simp [h, h2, FlatBufferBuilder.record]

theorem lua_toboolean_push_top (L : lua_State) (v : LuaValue) :
    lua_toboolean (lua_push L v) (L.stack.length + 1) = truthy v := by
  rw [lua_toboolean, index2value_push_top]
  cases v <;> rfl

theorem scalar_is_zero_bool (t : Bool) :
    scalar_is_zero .UByte (if t = true then 1 else 0) = !t := by
  cases t <;> decide

theorem table_CHECK_FIELD_present (index : Nat) (fld : Field) (L : lua_State)
    (entries : List (String × LuaValue)) (htop : lua_gettop L = index)
    (hvalue : index2value L index = some (.table entries))
    (hpresent : is_present entries fld = true) :
    lflatbuffers.table_CHECK_FIELD index fld L
      = some (lua_push L (table_get fld.name entries)) := by
  have hne : table_get fld.name entries ≠ .nil := by
    intro h
    have := (is_present_eq_false entries fld).2 h
    simp [this] at hpresent
  unfold lua_gettop at htop
  subst htop
  have hnil : lua_isnil (lua_push L (table_get fld.name entries)) (L.stack.length + 1) = false := by
    cases h : lua_isnil (lua_push L (table_get fld.name entries)) (L.stack.length + 1)
    · rfl
    · exact absurd ((lua_isnil_push_top L _).1 h) hne
  simp [lflatbuffers.table_CHECK_FIELD, lua_getfield_table _ _ _ _ hvalue, hnil]

/-- One iteration of the scalar loop of `encode_table` on a present `Bool`, `String`,
`Vector` or `Union` field: the stack and the error collector are restored, and a slot
is tracked just for a `Bool` that is true or forced. -/
theorem encode_table_field_leaf (env : Env) (index : Nat) (fld : Field) (L : lua_State)
    (self : lflatbuffers) (entries : List (String × LuaValue)) (htop : lua_gettop L = index)
    (hvalue : index2value L index = some (.table entries))
    (hp : is_present entries fld = true)
    (hkind : fld.type.base_type = .Bool ∨ fld.type.base_type = .String
      ∨ fld.type.base_type = .Vector ∨ fld.type.base_type = .Union) :
    ∃ b : FlatBufferBuilder,
      lflatbuffers.encode_table_field env index fld L self = ⟨none, L, { self with _fbb := b }⟩
      ∧ b.force_defaults = self._fbb.force_defaults
      ∧ b.offsetbuf.map Prod.snd = self._fbb.offsetbuf.map Prod.snd
          ++ (if records_slot entries self._fbb.force_defaults fld then [fld.offset] else []) := by
  have hc := table_CHECK_FIELD_present index fld L entries htop hvalue hp
  have htop2 : index + 1 = L.stack.length + 1 := by rw [← htop]; rfl
  rcases hkind with h | h | h | h
  · refine ⟨self._fbb.AddElement env .UByte fld.offset
      (if lua_toboolean (lua_push L (table_get fld.name entries)) (index + 1) then 1 else 0),
      ?_, AddElement_force_defaults _ _ _ _ _, ?_⟩
    · simp [lflatbuffers.encode_table_field, hc, h, lua_pop_push]
    · rw [AddElement_slots, htop2, lua_toboolean_push_top, scalar_is_zero_bool]
      congr 1
      cases ht : truthy (table_get fld.name entries) <;>
        cases hf : self._fbb.force_defaults <;> simp [records_slot, h, hp, ht]
  all_goals
    refine ⟨self._fbb, ?_, rfl, ?_⟩
    · simp [lflatbuffers.encode_table_field, hc, h, lua_pop_push]
    · simp [records_slot, h]

theorem encode_table_scalar_leaf (env : Env) (index : Nat) (L : lua_State)
    (entries : List (String × LuaValue)) (htop : lua_gettop L = index)
    (hvalue : index2value L index = some (.table entries)) :
    ∀ (scalar : List Field) (self : lflatbuffers),
      (∀ fld ∈ scalar, is_present entries fld = true) →
      (∀ fld ∈ scalar, fld.type.base_type = .Bool ∨ fld.type.base_type = .String
        ∨ fld.type.base_type = .Vector ∨ fld.type.base_type = .Union) →
      ∃ b : FlatBufferBuilder,
        lflatbuffers.encode_table_scalar env index scalar L self
          = ⟨none, L, { self with _fbb := b }⟩
        ∧ b.force_defaults = self._fbb.force_defaults
        ∧ b.offsetbuf.map Prod.snd = self._fbb.offsetbuf.map Prod.snd
            ++ (scalar.filter (records_slot entries self._fbb.force_defaults)).map Field.offset
  | [], self, _, _ => ⟨self._fbb, by simp [lflatbuffers.encode_table_scalar], rfl, by simp⟩
  | fld :: rest, self, hp, hk => by
    obtain ⟨b1, h1, hf1, hs1⟩ := encode_table_field_leaf env index fld L self entries htop hvalue
      (hp fld (List.mem_cons_self _ _)) (hk fld (List.mem_cons_self _ _))
    obtain ⟨b2, h2, hf2, hs2⟩ := encode_table_scalar_leaf env index L entries htop hvalue rest
      { self with _fbb := b1 } (fun f hf => hp f (List.mem_cons_of_mem _ hf))
      (fun f hf => hk f (List.mem_cons_of_mem _ hf))
    refine ⟨b2, ?_, hf2.trans hf1, ?_⟩
    · simp only [lflatbuffers.encode_table_scalar, h1, h2]
    · rw [hs2, hs1]
      simp only [hf1]
      by_cases hr : records_slot entries self._fbb.force_defaults fld = true
      · simp [List.filter_cons, hr]
      · simp [List.filter_cons, hr]

/-- C6 as amended: for a table sequence without nested entries whose scalar fields are
`Bool`, `String`, `Vector` or `Union` fields, encoded from a table on top of the stack
in which every one of these fields is present, with no field location pending,
`encode_table` returns `0` with the stack as on entry, and the slots tracked in the
table scope when `EndTable` is reached are, in the order of the scalar list, the slots
of the `Bool` fields whose value is true (of every `Bool` field when the builder forces
defaults). A present `String`, `Vector` or `Union` field tracks nothing. -/
theorem C6_table_scope_tracks_true_bool_fields (env : Env) (index : Nat) (seq : sequence)
    (L : lua_State) (self : lflatbuffers) (entries : List (String × LuaValue))
    (htop : lua_gettop L = index)
    (hvalue : index2value L index = some (.table entries))
    (htable : seq.object.is_struct = false)
    (hnested : seq.nested = [])
    (hpresent : ∀ fld ∈ seq.scalar, is_present entries fld = true)
    (hkinds : ∀ fld ∈ seq.scalar, fld.type.base_type = .Bool ∨ fld.type.base_type = .String
        ∨ fld.type.base_type = .Vector ∨ fld.type.base_type = .Union)
    (hidle : self._fbb.offsetbuf = []) :
    (lflatbuffers.encode_table env index seq L self).1.outcome = .returned 0
    ∧ (lflatbuffers.encode_table env index seq L self).1.L = L
    ∧ (lflatbuffers.encode_table_scope env index seq L self).1.exit = none
    ∧ (lflatbuffers.encode_table_scope env index seq L self).1.self._fbb.offsetbuf.map Prod.snd
        = (seq.scalar.filter (records_slot entries self._fbb.force_defaults)).map Field.offset := by
  obtain ⟨b, hb, _, hs⟩ := encode_table_scalar_leaf env index L entries htop hvalue seq.scalar
    { self with _fbb := self._fbb.StartTable.1 } hpresent hkinds
  have hscope : lflatbuffers.encode_table_scope env index seq L self
      = (⟨none, L, { self with _fbb := b }⟩, self._fbb.size) := by
    simp only [lflatbuffers.encode_table_scope, htable, hnested,
      lflatbuffers.encode_table_nested, hb]
    simp [lflatbuffers.add_nested_offsets, FlatBufferBuilder.StartTable]
  refine ⟨?_, ?_, ?_, ?_⟩
  · simp only [lflatbuffers.encode_table, hscope]
  · simp only [lflatbuffers.encode_table, hscope]
  · rw [hscope]
  · rw [hscope]
    simpa [FlatBufferBuilder.StartTable, FlatBufferBuilder.record, hidle] using hs

/-- C6 amended, at the table `Label` and the value `{name = "abc", visible = true}`. -/
theorem C6_table_scope_tracks_true_bool_fields_witness :
    lua_gettop (call_stack (.table label_value)) = 4
    ∧ index2value (call_stack (.table label_value)) 4 = some (.table label_value)
    ∧ label_sequence.object.is_struct = false
    ∧ label_sequence.nested = []
    ∧ label_sequence.scalar.map (is_present label_value) = [true, true]
    ∧ geo_engine._fbb.offsetbuf = []
    ∧ (lflatbuffers.encode_table (sample_env false) 4 label_sequence
        (call_stack (.table label_value)) geo_engine).1.outcome = .returned 0
    ∧ (lflatbuffers.encode_table_scope (sample_env false) 4 label_sequence
        (call_stack (.table label_value)) geo_engine).1.self._fbb.offsetbuf.map Prod.snd
        = (label_sequence.scalar.filter
            (records_slot label_value geo_engine._fbb.force_defaults)).map Field.offset :=
  ⟨rfl, rfl, rfl, rfl, by decide, rfl,
    (C6_table_scope_tracks_true_bool_fields (sample_env false) 4 label_sequence
      (call_stack (.table label_value)) geo_engine label_value rfl rfl rfl rfl
      (by decide) (by decide) rfl).1,
    (C6_table_scope_tracks_true_bool_fields (sample_env false) 4 label_sequence
      (call_stack (.table label_value)) geo_engine label_value rfl rfl rfl rfl
      (by decide) (by decide) rfl).2.2.2⟩

/-- C6 as stated fails on the table `Label` and the value `{name = "abc", visible =
true}`: both fields are present and correctly typed and `encode_table` returns `0`,
but the only call that adds to the table scope is the one for `visible`, so the scope
tracks slot 6 alone while the present fields have the slots 4 and 6. -/
theorem C6_present_string_field_is_not_recorded :
    (label_sequence.scalar.filter (is_present label_value)).map Field.offset = [4, 6]
    ∧ (lflatbuffers.encode_table (sample_env false) 4 label_sequence
        (call_stack (.table label_value)) geo_engine).1.outcome = .returned 0
    ∧ (lflatbuffers.encode_table (sample_env false) 4 label_sequence
        (call_stack (.table label_value)) geo_engine).1.self._fbb.calls
        = [.StartTable, .AddElement .UByte 6 1, .EndTable 0 2]
    ∧ (lflatbuffers.encode_table_scope (sample_env false) 4 label_sequence
        (call_stack (.table label_value)) geo_engine).1.self._fbb.offsetbuf.map Prod.snd = [6]
    ∧ ¬ (∀ slot : Nat,
        slot ∈ (lflatbuffers.encode_table_scope (sample_env false) 4 label_sequence
          (call_stack (.table label_value)) geo_engine).1.self._fbb.offsetbuf.map Prod.snd
        ↔ slot ∈ (label_sequence.scalar.filter (is_present label_value)).map Field.offset) := by
  refine ⟨by decide, by decide, by decide, by decide, fun h => ?_⟩
  have h4 := (h 4).2 (by decide)
  revert h4
  decide

/-! ## `encode_object` on a table -/

/-- C7, evaluated on the table `Label` and the value `{name = "abc", visible = true}`,
in which every field is present: `encode_table` returns `0`, opens a table scope, adds
the element of `visible`, closes the scope and assigns the offset `8`, while
`encode_object` returns `0` without a call on the builder and assigns no offset. -/
theorem C7_encode_object_skips_tables (ndebug : Bool) :
    label_sequence.object.is_struct = false
    ∧ (lflatbuffers.encode_table (sample_env ndebug) 4 label_sequence
        (call_stack (.table label_value)) geo_engine).1.outcome = .returned 0
    ∧ (lflatbuffers.encode_table (sample_env ndebug) 4 label_sequence
        (call_stack (.table label_value)) geo_engine).1.self._fbb.calls
        = [.StartTable, .AddElement .UByte 6 1, .EndTable 0 2]
    ∧ (lflatbuffers.encode_table (sample_env ndebug) 4 label_sequence
        (call_stack (.table label_value)) geo_engine).2 = some 8
    ∧ (lflatbuffers.encode_object (sample_env ndebug) 4 label_sequence
        (call_stack (.table label_value)) geo_engine).1.outcome = .returned 0
    ∧ (lflatbuffers.encode_object (sample_env ndebug) 4 label_sequence
        (call_stack (.table label_value)) geo_engine).1.self._fbb.calls = []
    ∧ (lflatbuffers.encode_object (sample_env ndebug) 4 label_sequence
        (call_stack (.table label_value)) geo_engine).2 = none := by
  cases ndebug <;> decide

/-! ## Lookups in `encode` -/

theorem no_such_object_ne_no_such_schema (object schema : String) :
    "no such object(" ++ object ++ ") at schema(" ++ schema ++ ")." ≠ "no such schema" := by
  intro h
  have h2 := congrArg String.data h
  simp [String.data_append] at h2

theorem no_such_schema_ne_no_such_object (object schema : String) :
    "no such schema" ≠ "no such object(" ++ object ++ ") at schema(" ++ schema ++ ")." :=
  fun h => no_such_object_ne_no_such_schema object schema h.symm

/-- The method `encode_object` never returns a negative number. -/
theorem encode_object_not_negative (env : Env) (index : Nat) (seq : sequence) (L : lua_State)
    (self : lflatbuffers) (v : Int)
    (h : (lflatbuffers.encode_object env index seq L self).1.outcome = .returned v) : v = 0 := by
  unfold lflatbuffers.encode_object at h
  by_cases hs : seq.object.is_struct = true
  · simp only [hs, if_true] at h
    generalize lflatbuffers.encode_struct env _ index seq L _ = r at h
    cases hr : r.outcome <;> simp [hr] at h
    exact h.symm
  · simp only [hs] at h
    simpa using h.symm

/-- When both lookups succeed, `encode` does not return `-1`. -/
theorem encode_found_not_failure (env : Env) (schema object : String) (index : Nat)
    (L : lua_State) (self : lflatbuffers) (sequences : List (String × sequence))
    (seq : sequence) (h1 : self._schema.lookup schema = some sequences)
    (h2 : sequences.lookup object = some seq) :
    (lflatbuffers.encode env schema object index L self).outcome ≠ .returned (-1) := by
  unfold lflatbuffers.encode
  simp only [h1, h2]
  have hn := encode_object_not_negative env index seq L { self with _fbb := self._fbb.Clear }
  generalize lflatbuffers.encode_object env index seq L { self with _fbb := self._fbb.Clear } = r
    at hn
  cases hr : r.1.outcome with
  | returned v =>
    have hv := hn v hr
    subst hv
    simp
  | lua_error => simp
  | aborted => simp

/-- C8: `encode` returns `-1` with the error `no such schema` exactly when the schema
name has no entry in `_schema`, and returns `-1` with the error `no such object(<object>)
at schema(<schema>).` exactly when the schema has an entry without a build sequence
under the object name. In both cases the result is the state on entry with the error
message replaced: the Lua stack, the builder, the registry and the backtrace are those
on entry, so nothing was encoded. -/
theorem C8_encode_lookup_failures (env : Env) (schema object : String) (index : Nat)
    (L : lua_State) (self : lflatbuffers) :
    (self._schema.lookup schema = none →
      lflatbuffers.encode env schema object index L self
        = ⟨.returned (-1), L,
            { self with _error_collector :=
                { self._error_collector with what := "no such schema" } }⟩)
    ∧ (∀ sequences, self._schema.lookup schema = some sequences →
        sequences.lookup object = none →
      lflatbuffers.encode env schema object index L self
        = ⟨.returned (-1), L,
            { self with _error_collector :=
                { self._error_collector with
                  what := "no such object(" ++ object ++ ") at schema(" ++ schema ++ ")." } }⟩)
    ∧ (((lflatbuffers.encode env schema object index L self).outcome = .returned (-1)
        ∧ (lflatbuffers.encode env schema object index L self).self._error_collector.what
            = "no such schema")
      ↔ self._schema.lookup schema = none)
    ∧ (((lflatbuffers.encode env schema object index L self).outcome = .returned (-1)
        ∧ (lflatbuffers.encode env schema object index L self).self._error_collector.what
            = "no such object(" ++ object ++ ") at schema(" ++ schema ++ ").")
      ↔ ∃ sequences, self._schema.lookup schema = some sequences
          ∧ sequences.lookup object = none) := by
  have hA : self._schema.lookup schema = none →
      lflatbuffers.encode env schema object index L self
        = ⟨.returned (-1), L,
            { self with _error_collector :=
                { self._error_collector with what := "no such schema" } }⟩ := by
    intro h
    simp only [lflatbuffers.encode, h]
  have hB : ∀ sequences, self._schema.lookup schema = some sequences →
        sequences.lookup object = none →
      lflatbuffers.encode env schema object index L self
        = ⟨.returned (-1), L,
            { self with _error_collector :=
                { self._error_collector with
                  what := "no such object(" ++ object ++ ") at schema(" ++ schema ++ ")." } }⟩ := by
    intro sequences h1 h2
    simp only [lflatbuffers.encode, h1, h2]
  refine ⟨hA, hB, ?_, ?_⟩
  · constructor
    · rintro ⟨hout, hwhat⟩
      cases h1 : self._schema.lookup schema with
      | none => rfl
      | some sequences =>
        cases h2 : sequences.lookup object with
        | none =>
          rw [hB sequences h1 h2] at hwhat
          exact absurd hwhat (no_such_object_ne_no_such_schema object schema)
        | some seq =>
          exact absurd hout (encode_found_not_failure env schema object index L self
            sequences seq h1 h2)
    · intro h
      rw [hA h]
      exact ⟨rfl, rfl⟩
  · constructor
    · rintro ⟨hout, hwhat⟩
      cases h1 : self._schema.lookup schema with
      | none =>
        rw [hA h1] at hwhat
        exact absurd hwhat (no_such_schema_ne_no_such_object object schema)
      | some sequences =>
        cases h2 : sequences.lookup object with
        | none => exact ⟨sequences, rfl, h2⟩
        | some seq =>
          exact absurd hout (encode_found_not_failure env schema object index L self
            sequences seq h1 h2)
    · rintro ⟨sequences, h1, h2⟩
      rw [hB sequences h1 h2]
      exact ⟨rfl, rfl⟩

/-- C8 at the engine `geo_engine`: the schema `nope` is not loaded, and the schema `geo`
has no object `Line`. -/
theorem C8_encode_lookup_failures_witness :
    geo_engine._schema.lookup "nope" = none
    ∧ (lflatbuffers.encode (sample_env false) "nope" "Vec" 4 (call_stack (.table []))
        geo_engine).outcome = .returned (-1)
    ∧ (lflatbuffers.encode (sample_env false) "nope" "Vec" 4 (call_stack (.table []))
        geo_engine).self._error_collector.what = "no such schema"
    ∧ (∃ sequences, geo_engine._schema.lookup "geo" = some sequences
        ∧ sequences.lookup "Line" = none)
    ∧ (lflatbuffers.encode (sample_env false) "geo" "Line" 4 (call_stack (.table []))
        geo_engine).outcome = .returned (-1)
    ∧ (lflatbuffers.encode (sample_env false) "geo" "Line" 4 (call_stack (.table []))
        geo_engine).self._error_collector.what = "no such object(Line) at schema(geo)." :=
  have h1 : geo_engine._schema.lookup "nope" = none := rfl
  have h2 : ∃ sequences, geo_engine._schema.lookup "geo" = some sequences
        ∧ sequences.lookup "Line" = none := ⟨_, rfl, rfl⟩
  ⟨h1,
    ((C8_encode_lookup_failures (sample_env false) "nope" "Vec" 4 (call_stack (.table []))
      geo_engine).2.2.1.2 h1).1,
    ((C8_encode_lookup_failures (sample_env false) "nope" "Vec" 4 (call_stack (.table []))
      geo_engine).2.2.1.2 h1).2,
    h2,
    ((C8_encode_lookup_failures (sample_env false) "geo" "Line" 4 (call_stack (.table []))
      geo_engine).2.2.2.2 h2).1,
    ((C8_encode_lookup_failures (sample_env false) "geo" "Line" 4 (call_stack (.table []))
      geo_engine).2.2.2.2 h2).2⟩

/-! ## The compiler of build sequences -/

theorem make_object_sequence_field_nested (env : Env)
    (compile : sequence → Object → Except Halt sequence) (schema : Schema) (seq : sequence)
    (fld : Field) (h : is_nested_field fld = true) :
    make_object_sequence_field env compile schema seq fld
      = match Schema_objects_Get schema fld.type.index with
        | .ok sub_object => PUSH_SEQUENCE compile seq fld sub_object
        | .error e => .error e := by
  unfold make_object_sequence_field
  cases hb : fld.type.base_type <;> simp [is_nested_field, hb] at h ⊢
  simp [h]

theorem make_object_sequence_field_scalar (env : Env)
    (compile : sequence → Object → Except Halt sequence) (schema : Schema) (seq : sequence)
    (fld : Field) (h : is_scalar_field fld = true) :
    make_object_sequence_field env compile schema seq fld
      = .ok (.mk seq.field seq.object seq.nested (seq.scalar ++ [fld])) := by
  unfold make_object_sequence_field
  cases hb : fld.type.base_type <;> simp [is_scalar_field, is_nested_field, hb] at h ⊢
  simp [h]

theorem make_object_sequence_field_none (env : Env)
    (compile : sequence → Object → Except Halt sequence) (schema : Schema) (seq : sequence)
    (fld : Field) (h : fld.type.base_type = .None) :
    make_object_sequence_field env compile schema seq fld
      = if env.ndebug then .ok seq else .error .assert_failed := by
  unfold make_object_sequence_field
  simp [h]

theorem field_classes (fld : Field) :
    is_nested_field fld = true ∨ is_scalar_field fld = true ∨ fld.type.base_type = .None := by
  cases hb : fld.type.base_type <;> cases he : fld.type.element <;>
    simp [is_nested_field, is_scalar_field, hb, he]

theorem is_scalar_field_not_nested (fld : Field) (h : is_scalar_field fld = true) :
    is_nested_field fld = false := by
  simp [is_scalar_field] at h
  exact h.1

theorem is_nested_field_not_scalar (fld : Field) (h : is_nested_field fld = true) :
    is_scalar_field fld = false := by
  simp [is_scalar_field, h]

theorem none_field_not_nested (fld : Field) (h : fld.type.base_type = .None) :
    is_nested_field fld = false ∧ is_scalar_field fld = false := by
  simp [is_nested_field, is_scalar_field, h]

/-- What the loop has done when it ends normally: the scalar fields of `fields` are
appended to `scalar`, and for each nested-object field of `fields` one entry is appended
to `nested`, the Object at the index of the field type compiled from a fresh entry by
`compile`. -/
theorem make_object_sequence_loop_ok (env : Env)
    (compile : sequence → Object → Except Halt sequence) (schema : Schema) :
    ∀ (fields : List Field) (seq out : sequence),
      make_object_sequence_loop env compile schema fields seq = .ok out →
      out.field = seq.field ∧ out.object = seq.object
      ∧ out.scalar = seq.scalar ++ fields.filter is_scalar_field
      ∧ ∃ subs, out.nested = seq.nested ++ subs
        ∧ List.Forall₂
            (fun f sub => ∃ so, Schema_objects_Get schema f.type.index = .ok so
              ∧ compile (.mk (some f) so [] []) so = .ok sub)
            (fields.filter is_nested_field) subs
  | [], seq, out, h => by
    simp only [make_object_sequence_loop, Except.ok.injEq] at h
    subst h
    exact ⟨rfl, rfl, by simp, [], by simp, by simp⟩
  | fld :: rest, seq, out, h => by
    simp only [make_object_sequence_loop] at h
    rcases field_classes fld with hn | hs | h0
    · rw [make_object_sequence_field_nested env compile schema seq fld hn] at h
      cases hg : Schema_objects_Get schema fld.type.index with
      | error e => simp [hg] at h
      | ok so =>
        simp only [hg, PUSH_SEQUENCE] at h
        cases hc : compile (.mk (some fld) so [] []) so with
        | error e => simp [hc] at h
        | ok sub =>
          simp only [hc] at h
          obtain ⟨h1, h2, h3, subs, h4, h5⟩ :=
            make_object_sequence_loop_ok env compile schema rest _ out h
          refine ⟨h1, h2, ?_, sub :: subs, ?_, ?_⟩
          · simpa [List.filter_cons, is_nested_field_not_scalar fld hn, sequence.scalar] using h3
          · simpa [sequence.nested] using h4
          · simp only [List.filter_cons, hn, if_true]
            exact List.Forall₂.cons ⟨so, hg, hc⟩ h5
    · rw [make_object_sequence_field_scalar env compile schema seq fld hs] at h
      simp only at h
      obtain ⟨h1, h2, h3, subs, h4, h5⟩ :=
        make_object_sequence_loop_ok env compile schema rest _ out h
      refine ⟨h1, h2, ?_, subs, h4, ?_⟩
      · simpa [List.filter_cons, hs, sequence.scalar] using h3
      · simpa [List.filter_cons, is_scalar_field_not_nested fld hs] using h5
    · rw [make_object_sequence_field_none env compile schema seq fld h0] at h
      cases hd : env.ndebug with
      | false => simp [hd] at h
      | true =>
        simp only [hd, if_true] at h
        obtain ⟨h1, h2, h3, subs, h4, h5⟩ :=
          make_object_sequence_loop_ok env compile schema rest _ out h
        refine ⟨h1, h2, ?_, subs, h4, ?_⟩
        · simpa [List.filter_cons, (none_field_not_nested fld h0).2] using h3
        · simpa [List.filter_cons, (none_field_not_nested fld h0).1] using h5

/-- The shape of a sequence that `make_object_sequence` produces from a fresh entry. -/
theorem make_object_sequence_ok (env : Env) (schema : Schema) (fuel : Nat)
    (fld : Option Field) (object : Object) (out : sequence)
    (h : make_object_sequence env schema (fuel + 1) (.mk fld object [] []) object = .ok out) :
    out.field = fld ∧ out.object = object
    ∧ out.scalar = object.fields.filter is_scalar_field
    ∧ List.Forall₂
        (fun f sub => ∃ so, Schema_objects_Get schema f.type.index = .ok so
          ∧ sub.field = some f ∧ sub.object = so
          ∧ make_object_sequence env schema fuel (.mk (some f) so [] []) so = .ok sub)
        (object.fields.filter is_nested_field) out.nested := by
  simp only [make_object_sequence] at h
  obtain ⟨h1, h2, h3, subs, h4, h5⟩ := make_object_sequence_loop_ok env _ schema _ _ out h
  refine ⟨h1, h2, by simpa [sequence.scalar] using h3, ?_⟩
  have h6 : out.nested = subs := by simpa [sequence.nested] using h4
  rw [h6]
  refine List.Forall₂.imp ?_ h5
  rintro f sub ⟨so, hg, hc⟩
  refine ⟨so, hg, ?_, ?_, hc⟩
  · cases fuel with
    | zero => simp [make_object_sequence] at hc
    | succ n =>
      simp only [make_object_sequence] at hc
      exact (make_object_sequence_loop_ok env _ schema _ _ sub hc).1
  · cases fuel with
    | zero => simp [make_object_sequence] at hc
    | succ n =>
      simp only [make_object_sequence] at hc
      exact (make_object_sequence_loop_ok env _ schema _ _ sub hc).2.1

/-- C10: when `make_object_sequence` produces a sequence for an Object from a fresh
entry, the entry keeps its field and Object; `scalar` is the list of the fields that
are neither nested-object fields nor of base type `None`, in field order; and `nested`
has one entry for each field whose base type is `Obj` or that is a `Vector` of `Obj`,
in field order, and for no other field: the entry carries that field, the Object at the
index of the field type in the object list of the schema, and is the sequence that
`make_object_sequence` compiles for that Object one level deeper. -/
theorem C10_nested_iff_object_field (env : Env) (schema : Schema) (fuel : Nat)
    (fld : Option Field) (object : Object) (out : sequence)
    (h : make_object_sequence env schema (fuel + 1) (.mk fld object [] []) object = .ok out) :
    out.field = fld ∧ out.object = object
    ∧ out.scalar = object.fields.filter is_scalar_field
    ∧ List.Forall₂
        (fun f sub => ∃ so, Schema_objects_Get schema f.type.index = .ok so
          ∧ sub.field = some f ∧ sub.object = so
          ∧ make_object_sequence env schema fuel (.mk (some f) so [] []) so = .ok sub)
        (object.fields.filter is_nested_field) out.nested :=
  make_object_sequence_ok env schema fuel fld object out h

/-- C10 at the table `Monster`: `path` and `pos` are nested, `hp` and `name` scalar. -/
theorem C10_nested_iff_object_field_witness :
    make_object_sequence (sample_env false) monster_schema 2 (.mk none Monster [] []) Monster
      = .ok (.mk none Monster
          [.mk (some monster_path) Vec [] [vec_x, vec_y],
            .mk (some monster_pos) Vec [] [vec_x, vec_y]]
          [monster_hp, monster_name])
    ∧ (sequence.mk none Monster
          [.mk (some monster_path) Vec [] [vec_x, vec_y],
            .mk (some monster_pos) Vec [] [vec_x, vec_y]]
          [monster_hp, monster_name]).scalar = Monster.fields.filter is_scalar_field
    ∧ List.Forall₂
        (fun f sub => ∃ so, Schema_objects_Get monster_schema f.type.index = .ok so
          ∧ sub.field = some f ∧ sub.object = so
          ∧ make_object_sequence (sample_env false) monster_schema 1 (.mk (some f) so [] []) so
              = .ok sub)
        (Monster.fields.filter is_nested_field)
        (sequence.mk none Monster
          [.mk (some monster_path) Vec [] [vec_x, vec_y],
            .mk (some monster_pos) Vec [] [vec_x, vec_y]]
          [monster_hp, monster_name]).nested :=
  ⟨rfl,
    (C10_nested_iff_object_field (sample_env false) monster_schema 1 none Monster _ rfl).2.2.1,
    (C10_nested_iff_object_field (sample_env false) monster_schema 1 none Monster _ rfl).2.2.2⟩

theorem Schema_objects_Get_mem (schema : Schema) (i : Int) (o : Object)
    (h : Schema_objects_Get schema i = .ok o) : o ∈ schema.objects := by
  unfold Schema_objects_Get at h
  split at h
  · split at h
    · rename_i o2 hget
      simp only [Except.ok.injEq] at h
      subst h
      exact List.getElem?_mem hget
    · simp at h
  · simp at h

theorem make_object_sequence_field_mono (env : Env)
    (c1 c2 : sequence → Object → Except Halt sequence) (schema : Schema)
    (hc : ∀ s o r, c1 s o = .ok r → c2 s o = .ok r) (seq out : sequence) (fld : Field)
    (h : make_object_sequence_field env c1 schema seq fld = .ok out) :
    make_object_sequence_field env c2 schema seq fld = .ok out := by
  rcases field_classes fld with hn | hs | h0
  · rw [make_object_sequence_field_nested env _ schema seq fld hn] at h ⊢
    cases hg : Schema_objects_Get schema fld.type.index with
    | error e => simp [hg] at h
    | ok so =>
      simp only [hg, PUSH_SEQUENCE] at h ⊢
      cases h1 : c1 (.mk (some fld) so [] []) so with
      | error e => simp [h1] at h
      | ok sub =>
        simp only [h1] at h
        simp only [hc _ _ _ h1]
        exact h
  · rw [make_object_sequence_field_scalar env _ schema seq fld hs] at h ⊢
    exact h
  · rw [make_object_sequence_field_none env _ schema seq fld h0] at h ⊢
    exact h

theorem make_object_sequence_loop_mono (env : Env)
    (c1 c2 : sequence → Object → Except Halt sequence) (schema : Schema)
    (hc : ∀ s o r, c1 s o = .ok r → c2 s o = .ok r) :
    ∀ (fields : List Field) (seq out : sequence),
      make_object_sequence_loop env c1 schema fields seq = .ok out →
      make_object_sequence_loop env c2 schema fields seq = .ok out
  | [], _, _, h => by simpa [make_object_sequence_loop] using h
  | fld :: rest, seq, out, h => by
    simp only [make_object_sequence_loop] at h ⊢
    cases h1 : make_object_sequence_field env c1 schema seq fld with
    | error e => simp [h1] at h
    | ok seq1 =>
      simp only [h1] at h
      simp only [make_object_sequence_field_mono env c1 c2 schema hc seq seq1 fld h1]
      exact make_object_sequence_loop_mono env c1 c2 schema hc rest seq1 out h

/-- More fuel does not change a result that was produced. -/
theorem make_object_sequence_fuel_succ (env : Env) (schema : Schema) :
    ∀ (fuel : Nat) (seq : sequence) (object : Object) (out : sequence),
      make_object_sequence env schema fuel seq object = .ok out →
      make_object_sequence env schema (fuel + 1) seq object = .ok out
  | 0, _, _, _, h => by simp [make_object_sequence] at h
  | fuel + 1, seq, object, out, h => by
    simp only [make_object_sequence] at h ⊢
    exact make_object_sequence_loop_mono env _ _ schema
      (fun s o r hr => by
        have := make_object_sequence_fuel_succ env schema fuel s o r hr
        simpa only [make_object_sequence] using this)
      object.fields seq out h

theorem make_object_sequence_fuel_le (env : Env) (schema : Schema) (seq : sequence)
    (object : Object) (out : sequence) (fuel fuel2 : Nat) (hle : fuel ≤ fuel2)
    (h : make_object_sequence env schema fuel seq object = .ok out) :
    make_object_sequence env schema fuel2 seq object = .ok out := by
  induction hle with
  | refl => exact h
  | step _ ih => exact make_object_sequence_fuel_succ env schema _ seq object out ih

/-- The loop produces a sequence when no field has base type `None` and every
nested-object field refers to an Object that `compile` can compile. -/
theorem make_object_sequence_loop_exists (env : Env)
    (compile : sequence → Object → Except Halt sequence) (schema : Schema) :
    ∀ (fields : List Field) (seq : sequence),
      (∀ f ∈ fields, f.type.base_type ≠ .None) →
      (∀ f ∈ fields, is_nested_field f = true →
        ∃ so, Schema_objects_Get schema f.type.index = .ok so
          ∧ ∀ s, ∃ r, compile s so = .ok r) →
      ∃ out, make_object_sequence_loop env compile schema fields seq = .ok out
  | [], seq, _, _ => ⟨seq, rfl⟩
  | fld :: rest, seq, hnone, hsub => by
    have hrest := fun s => make_object_sequence_loop_exists env compile schema rest s
      (fun f hf => hnone f (List.mem_cons_of_mem _ hf))
      (fun f hf => hsub f (List.mem_cons_of_mem _ hf))
    simp only [make_object_sequence_loop]
    rcases field_classes fld with hn | hs | h0
    · obtain ⟨so, hg, hc⟩ := hsub fld (List.mem_cons_self _ _) hn
      obtain ⟨r, hr⟩ := hc (.mk (some fld) so [] [])
      rw [make_object_sequence_field_nested env compile schema seq fld hn]
      simp only [hg, PUSH_SEQUENCE, hr]
      exact hrest _
    · rw [make_object_sequence_field_scalar env compile schema seq fld hs]
      exact hrest _
    · exact absurd h0 (hnone fld (List.mem_cons_self _ _))

theorem make_object_sequence_exists (env : Env) (schema : Schema) (rank : Object → Nat)
    (hrank : ∀ o ∈ schema.objects, ∀ f ∈ o.fields, is_nested_field f = true →
      ∃ sub, Schema_objects_Get schema f.type.index = .ok sub ∧ rank sub < rank o)
    (hnone : NoneFree schema) :
    ∀ (fuel : Nat) (object : Object), object ∈ schema.objects → rank object < fuel →
      ∀ seq, ∃ out, make_object_sequence env schema fuel seq object = .ok out
  | 0, _, _, hlt, _ => absurd hlt (Nat.not_lt_zero _)
  | fuel + 1, object, hobj, hlt, seq => by
    simp only [make_object_sequence]
    refine make_object_sequence_loop_exists env _ schema object.fields seq
      (hnone object hobj) (fun f hf hn => ?_)
    obtain ⟨so, hg, hr⟩ := hrank object hobj f hf hn
    exact ⟨so, hg, fun s => make_object_sequence_exists env schema rank hrank hnone fuel so
      (Schema_objects_Get_mem schema _ so hg) (by omega) s⟩

theorem filter_scalar_of_none_free (fields : List Field)
    (h : ∀ f ∈ fields, f.type.base_type ≠ .None) :
    fields.filter is_scalar_field = fields.filter (fun f => !is_nested_field f) := by
  apply List.filter_congr
  intro f hf
  have := h f hf
  simp [is_scalar_field, this]

theorem nested_fields_of_forall₂ (R : Field → sequence → Prop)
    (hR : ∀ f sub, R f sub → sub.field = some f) (fields : List Field)
    (subs : List sequence) (h : List.Forall₂ R fields subs) :
    subs.map sequence.field = fields.map some := by
  induction h with
  | nil => rfl
  | cons hab _ ih => simp [hR _ _ hab, ih]

/-- C9: in a schema whose object-reference graph is acyclic and that has no field of
base type `None`, `make_object_sequence` produces, for every Object and for every
amount of fuel from some point on, one and the same sequence, and this sequence is a
stable partition of the field list: the fields of `nested` are the nested-object fields
in field order, `scalar` holds the other fields in field order, both are sublists of
the field list, and together they are a permutation of it. -/
theorem C9_sequence_is_stable_partition (env : Env) (schema : Schema)
    (hacyclic : Acyclic schema) (hnone : NoneFree schema) (object : Object)
    (hobj : object ∈ schema.objects) (fld : Option Field) :
    ∃ fuel0 out,
      (∀ fuel, fuel0 ≤ fuel →
        make_object_sequence env schema fuel (.mk fld object [] []) object = .ok out)
      ∧ out.nested.map sequence.field = (object.fields.filter is_nested_field).map some
      ∧ out.scalar = object.fields.filter (fun f => !is_nested_field f)
      ∧ List.Sublist (out.nested.filterMap sequence.field) object.fields
      ∧ List.Sublist out.scalar object.fields
      ∧ List.Perm (out.nested.filterMap sequence.field ++ out.scalar) object.fields := by
  obtain ⟨rank, hrank⟩ := hacyclic
  obtain ⟨out, hout⟩ := make_object_sequence_exists env schema rank hrank hnone
    (rank object + 1) object hobj (Nat.lt_succ_self _) (.mk fld object [] [])
  obtain ⟨_, _, hs, hn⟩ := make_object_sequence_ok env schema (rank object) fld object out hout
  have hmap : out.nested.map sequence.field
      = (object.fields.filter is_nested_field).map some :=
    nested_fields_of_forall₂ _ (fun f sub hab => hab.choose_spec.2.1) _ _ hn
  have hfm : out.nested.filterMap sequence.field = object.fields.filter is_nested_field := by
    have h1 : out.nested.filterMap sequence.field
        = (out.nested.map sequence.field).filterMap id := by
      rw [List.filterMap_map]; rfl
    rw [h1, hmap, List.filterMap_map]
    simp
  have hsc : out.scalar = object.fields.filter (fun f => !is_nested_field f) := by
    rw [hs, filter_scalar_of_none_free _ (hnone object hobj)]
  refine ⟨rank object + 1, out,
    fun fuel hle => make_object_sequence_fuel_le env schema _ object out _ fuel hle hout,
    hmap, hsc, ?_, ?_, ?_⟩
  · rw [hfm]; exact List.filter_sublist _
  · rw [hsc]; exact List.filter_sublist _
  · rw [hfm, hsc]; exact List.filter_append_perm _ _

theorem monster_schema_acyclic : Acyclic monster_schema := by
  refine ⟨monster_rank, ?_⟩
  intro o ho f hf hn
  simp only [monster_schema, List.mem_cons, List.mem_singleton, List.not_mem_nil, or_false] at ho
  rcases ho with rfl | rfl
  · simp only [Monster, List.mem_cons, List.mem_singleton, List.not_mem_nil, or_false] at hf
    rcases hf with rfl | rfl | rfl | rfl
    · exact absurd hn (by decide)
    · exact absurd hn (by decide)
    · exact ⟨Vec, rfl, by decide⟩
    · exact ⟨Vec, rfl, by decide⟩
  · simp only [Vec, List.mem_cons, List.mem_singleton, List.not_mem_nil, or_false] at hf
    rcases hf with rfl | rfl
    · exact absurd hn (by decide)
    · exact absurd hn (by decide)

theorem monster_schema_none_free : NoneFree monster_schema := by
  intro o ho f hf
  simp only [monster_schema, List.mem_cons, List.mem_singleton, List.not_mem_nil, or_false] at ho
  rcases ho with rfl | rfl
  · simp only [Monster, List.mem_cons, List.mem_singleton, List.not_mem_nil, or_false] at hf
    rcases hf with rfl | rfl | rfl | rfl <;> decide
  · simp only [Vec, List.mem_cons, List.mem_singleton, List.not_mem_nil, or_false] at hf
    rcases hf with rfl | rfl <;> decide

/-- C9 at the table `Monster` of the schema `monster_schema`. -/
theorem C9_sequence_is_stable_partition_witness :
    Acyclic monster_schema ∧ NoneFree monster_schema ∧ Monster ∈ monster_schema.objects
    ∧ ∃ fuel0 out,
      (∀ fuel, fuel0 ≤ fuel →
        make_object_sequence (sample_env false) monster_schema fuel (.mk none Monster [] [])
          Monster = .ok out)
      ∧ out.nested.map sequence.field = (Monster.fields.filter is_nested_field).map some
      ∧ out.scalar = Monster.fields.filter (fun f => !is_nested_field f)
      ∧ List.Sublist (out.nested.filterMap sequence.field) Monster.fields
      ∧ List.Sublist out.scalar Monster.fields
      ∧ List.Perm (out.nested.filterMap sequence.field ++ out.scalar) Monster.fields :=
  ⟨monster_schema_acyclic, monster_schema_none_free, List.mem_cons_self _ _,
    C9_sequence_is_stable_partition (sample_env false) monster_schema monster_schema_acyclic
      monster_schema_none_free Monster (List.mem_cons_self _ _) none⟩

/-! ## What `encode_struct` can touch -/

theorem frame_frame (self : lflatbuffers) (ec1 ec2 : error_collector)
    (s1 s2 : List (Int × Option Nat)) :
    (self.frame ec1 s1).frame ec2 s2 = self.frame ec2 (s2 ++ s1) := by
  simp [lflatbuffers.frame]

theorem frame_self (self : lflatbuffers) : self.frame self._error_collector [] = self := by
  cases self
  simp [lflatbuffers.frame]

@[simp] theorem frame_error_collector (self : lflatbuffers) (ec : error_collector)
    (s : List (Int × Option Nat)) : (self.frame ec s)._error_collector = ec := rfl

theorem raise_frame (self : lflatbuffers) (what name : String) :
    self.raise what name
      = self.frame ⟨what, self._error_collector.schema,
          self._error_collector.backtrace ++ [name]⟩ [] := by
  cases self
  simp [lflatbuffers.raise, lflatbuffers.frame]

theorem WriteScalar_frame (self : lflatbuffers) (p : Int) (w bits : Nat) :
    { self with _fbb := self._fbb.WriteScalar p w bits }
      = self.frame self._error_collector (write_stores p w bits) := by
  cases self
  simp [lflatbuffers.frame, FlatBufferBuilder.WriteScalar, FlatBufferBuilder.store,
    write_stores]

/-- The macro `CHECK_FIELD` of `encode_struct` leaves a frame of the engine that does not
depend on the arena. -/
theorem struct_CHECK_FIELD_frame (index : Nat) (fld : Field) (L : lua_State)
    (ec : error_collector) :
    ∃ (exit : Option Outcome) (L1 : lua_State) (ec1 : error_collector),
      ∀ self : lflatbuffers, self._error_collector = ec →
        lflatbuffers.struct_CHECK_FIELD index fld L self = ⟨exit, L1, self.frame ec1 []⟩ := by
  unfold lflatbuffers.struct_CHECK_FIELD
  cases hg : lua_getfield L index fld.name with
  | none =>
    exact ⟨some .lua_error, L, ec, fun self h => by simp [← h, frame_self]⟩
  | some L1 =>
    by_cases hn : lua_isnil L1 (index + 1) = true
    · exact ⟨some (.returned (-1)), lua_pop L1 1,
        ⟨"missing required field", ec.schema, ec.backtrace ++ [fld.name]⟩,
        fun self h => by simp [hn, raise_frame, h]⟩
    · exact ⟨none, L1, ec, fun self h => by simp [hn, ← h, frame_self]⟩

theorem encode_struct_field_frame (env : Env) (buffer : Int) (index : Nat) (fld : Field)
    (L : lua_State) (ec : error_collector) :
    ∃ (exit : Option Outcome) (L1 : lua_State) (ec1 : error_collector)
      (stores : List (Int × Option Nat)),
      ∀ self : lflatbuffers, self._error_collector = ec →
        lflatbuffers.encode_struct_field env buffer index fld L self
          = ⟨exit, L1, self.frame ec1 stores⟩ := by
  obtain ⟨e0, L0, ec0, h0⟩ := struct_CHECK_FIELD_frame index fld L ec
  unfold lflatbuffers.encode_struct_field
  cases e0 with
  | some o => exact ⟨some o, L0, ec0, [], fun self h => by simp [h0 self h]⟩
  | none =>
    by_cases hb : fld.type.base_type = .Bool
    · refine ⟨none, lua_pop L0 1, ec0,
        write_stores (buffer + (fld.offset : Int)) 1
          (if lua_toboolean L0 (index + 1) = true then 1 else 0) ++ [], fun self h => ?_⟩
      simp only [h0 self h, hb]
      rw [WriteScalar_frame, frame_frame]
      rfl
    · by_cases hk : fld.type.base_type = .None ∨ fld.type.base_type = .String
          ∨ fld.type.base_type = .Vector ∨ fld.type.base_type = .Union
          ∨ fld.type.base_type = .Obj
      · cases hd : env.ndebug with
        | true =>
          refine ⟨none, lua_pop L0 1, ec0, [], fun self h => ?_⟩
          rcases hk with hk | hk | hk | hk | hk <;> simp [h0 self h, hk, hd]
        | false =>
          refine ⟨some .aborted, L0, ec0, [], fun self h => ?_⟩
          rcases hk with hk | hk | hk | hk | hk <;> simp [h0 self h, hk, hd]
      · have hset : ∀ self : lflatbuffers, self._error_collector = ec →
            lflatbuffers.encode_struct_field env buffer index fld L self
              = (let s := lflatbuffers.SET_NUMBER env fld.type.base_type
                    (buffer + (fld.offset : Int)) index fld L0 (self.frame ec0 [])
                 match s.exit with
                 | some o => ⟨some o, s.L, s.self⟩
                 | none => ⟨none, lua_pop s.L 1, s.self⟩) := by
          intro self h
          unfold lflatbuffers.encode_struct_field
          simp only [h0 self h]
          cases hbt : fld.type.base_type <;> simp_all
        by_cases hnum : lua_isnumber env L0 (index + 1) = true
        · refine ⟨some (.returned (-1)), lua_pop L0 1,
            ⟨"expect number,got" ++ lua_typename L0 (index + 1), ec0.schema,
              ec0.backtrace ++ [fld.name]⟩, [], fun self h => ?_⟩
          have := hset self h
          unfold lflatbuffers.encode_struct_field at this
          rw [this]
          simp [lflatbuffers.SET_NUMBER, hnum, raise_frame, frame_frame]
        · refine ⟨none, lua_pop L0 1, ec0,
            write_stores (buffer + (fld.offset : Int)) (scalar_size fld.type.base_type)
              (scalar_bits env fld.type.base_type (lua_tointeger env L0 (index + 1))) ++ [],
            fun self h => ?_⟩
          have := hset self h
          unfold lflatbuffers.encode_struct_field at this
          rw [this]
          simp only [lflatbuffers.SET_NUMBER, hnum]
          rw [WriteScalar_frame, frame_frame]
          rfl

theorem encode_struct_scalar_frame (env : Env) (buffer : Int) (index : Nat) :
    ∀ (scalar : List Field) (L : lua_State) (ec : error_collector),
      ∃ (out : Outcome) (L1 : lua_State) (ec1 : error_collector)
        (stores : List (Int × Option Nat)),
        ∀ self : lflatbuffers, self._error_collector = ec →
          lflatbuffers.encode_struct_scalar env buffer index scalar L self
            = ⟨out, L1, self.frame ec1 stores⟩
  | [], L, ec => ⟨.returned 0, L, ec, [], fun self h => by
      simp [lflatbuffers.encode_struct_scalar, ← h, frame_self]⟩
  | fld :: rest, L, ec => by
    obtain ⟨e0, L0, ec0, s0, h0⟩ := encode_struct_field_frame env buffer index fld L ec
    cases e0 with
    | some o =>
      exact ⟨o, L0, ec0, s0, fun self h => by
        simp [lflatbuffers.encode_struct_scalar, h0 self h]⟩
    | none =>
      obtain ⟨o1, L1, ec1, s1, h1⟩ := encode_struct_scalar_frame env buffer index rest L0 ec0
      exact ⟨o1, L1, ec1, s1 ++ s0, fun self h => by
        simp only [lflatbuffers.encode_struct_scalar, h0 self h]
        rw [h1 (self.frame ec0 s0) rfl, frame_frame]⟩

mutual

/-- The method `encode_struct` returns an outcome, a stack, an error collector and a list
of stored bytes that do not depend on the arena it is given; of the engine it replaces
the error collector and prepends the stored bytes to the arena, and nothing else. -/
theorem encode_struct_frame (env : Env) :
    ∀ (seq : sequence) (buffer : Int) (index : Nat) (L : lua_State) (ec : error_collector),
      ∃ (out : Outcome) (L1 : lua_State) (ec1 : error_collector)
        (stores : List (Int × Option Nat)),
        ∀ self : lflatbuffers, self._error_collector = ec →
          lflatbuffers.encode_struct env buffer index seq L self
            = ⟨out, L1, self.frame ec1 stores⟩
  | .mk fo object nested scalar, buffer, index, L, ec => by
    by_cases ha : (!env.ndebug && !object.is_struct) = true
    · exact ⟨.aborted, L, ec, [], fun self h => by
        simp only [lflatbuffers.encode_struct, ha, if_true, ← h, frame_self]⟩
    · obtain ⟨e0, L0, ec0, s0, h0⟩ := encode_struct_nested_frame env nested buffer index L ec
      cases e0 with
      | some o =>
        exact ⟨o, L0, ec0, s0, fun self h => by
          simp only [lflatbuffers.encode_struct, ha, h0 self h]
          simp⟩
      | none =>
        by_cases hb : (!env.ndebug && lua_gettop L0 != index) = true
        · exact ⟨.aborted, L0, ec0, s0, fun self h => by
            simp only [lflatbuffers.encode_struct, ha, h0 self h, hb]
            simp⟩
        · obtain ⟨o1, L1, ec1, s1, h1⟩ :=
            encode_struct_scalar_frame env buffer index scalar L0 ec0
          exact ⟨o1, L1, ec1, s1 ++ s0, fun self h => by
            simp only [lflatbuffers.encode_struct, ha, h0 self h, hb]
            simp only [Bool.false_eq_true, if_false]
            rw [h1 (self.frame ec0 s0) rfl, frame_frame]⟩

/-- The nested loop of `encode_struct`, in the same terms. -/
theorem encode_struct_nested_frame (env : Env) :
    ∀ (nested : List sequence) (buffer : Int) (index : Nat) (L : lua_State)
      (ec : error_collector),
      ∃ (exit : Option Outcome) (L1 : lua_State) (ec1 : error_collector)
        (stores : List (Int × Option Nat)),
        ∀ self : lflatbuffers, self._error_collector = ec →
          lflatbuffers.encode_struct_nested env buffer index nested L self
            = ⟨exit, L1, self.frame ec1 stores⟩
  | [], buffer, index, L, ec => ⟨none, L, ec, [], fun self h => by
      simp [lflatbuffers.encode_struct_nested, ← h, frame_self]⟩
  | sub :: rest, buffer, index, L, ec => by
    cases hf : sub.field with
    | none =>
      exact ⟨some .aborted, L, ec, [], fun self h => by
        simp [lflatbuffers.encode_struct_nested, hf, ← h, frame_self]⟩
    | some fld =>
      by_cases ha : (!env.ndebug && !sub.object.is_struct) = true
      · exact ⟨some .aborted, L, ec, [], fun self h => by
          simp only [lflatbuffers.encode_struct_nested, hf, ha, if_true, ← h, frame_self]⟩
      · obtain ⟨e0, L0, ec0, h0⟩ := struct_CHECK_FIELD_frame index fld L ec
        cases e0 with
        | some o =>
          exact ⟨some o, L0, ec0, [], fun self h => by
            simp only [lflatbuffers.encode_struct_nested, hf, ha, h0 self h]
            simp⟩
        | none =>
          obtain ⟨o1, L1, ec1, s1, h1⟩ :=
            encode_struct_frame env sub (buffer + (fld.offset : Int)) (index + 1) L0 ec0
          cases o1 with
          | returned v =>
            by_cases hv : v < 0
            · exact ⟨some (.returned (-1)), lua_pop L1 1, ec1, s1 ++ [], fun self h => by
                simp only [lflatbuffers.encode_struct_nested, hf, ha, h0 self h]
                simp only [Bool.false_eq_true, if_false]
                rw [h1 (self.frame ec0 []) rfl, frame_frame]
                simp [hv]⟩
            · obtain ⟨e2, L2, ec2, s2, h2⟩ :=
                encode_struct_nested_frame env rest buffer index (lua_pop L1 1) ec1
              exact ⟨e2, L2, ec2, s2 ++ (s1 ++ []), fun self h => by
                simp only [lflatbuffers.encode_struct_nested, hf, ha, h0 self h]
                simp only [Bool.false_eq_true, if_false]
                rw [h1 (self.frame ec0 []) rfl, frame_frame]
                simp only [hv, if_false]
                rw [h2 (self.frame ec1 (s1 ++ [])) rfl, frame_frame]⟩
          | lua_error =>
            exact ⟨some .lua_error, L1, ec1, s1 ++ [], fun self h => by
              simp only [lflatbuffers.encode_struct_nested, hf, ha, h0 self h]
              simp only [Bool.false_eq_true, if_false]
              rw [h1 (self.frame ec0 []) rfl, frame_frame]⟩
          | aborted =>
            exact ⟨some .aborted, L1, ec1, s1 ++ [], fun self h => by
              simp only [lflatbuffers.encode_struct_nested, hf, ha, h0 self h]
              simp only [Bool.false_eq_true, if_false]
              rw [h1 (self.frame ec0 []) rfl, frame_frame]⟩

end

/-! ## The registry is read-only for the encoder -/

@[simp] theorem frame_schema (self : lflatbuffers) (ec : error_collector)
    (s : List (Int × Option Nat)) : (self.frame ec s)._schema = self._schema := rfl

@[simp] theorem frame_bfbs_buffer (self : lflatbuffers) (ec : error_collector)
    (s : List (Int × Option Nat)) : (self.frame ec s)._bfbs_buffer = self._bfbs_buffer := rfl

theorem encode_struct_registry (env : Env) (seq : sequence) (buffer : Int) (index : Nat)
    (L : lua_State) (self : lflatbuffers) :
    (lflatbuffers.encode_struct env buffer index seq L self).self._schema = self._schema
    ∧ (lflatbuffers.encode_struct env buffer index seq L self).self._bfbs_buffer
        = self._bfbs_buffer := by
  obtain ⟨o, L1, ec1, s1, h⟩ := encode_struct_frame env seq buffer index L self._error_collector
  rw [h self rfl]
  exact ⟨rfl, rfl⟩

theorem encode_object_registry (env : Env) (index : Nat) (seq : sequence) (L : lua_State)
    (self : lflatbuffers) :
    (lflatbuffers.encode_object env index seq L self).1.self._schema = self._schema
    ∧ (lflatbuffers.encode_object env index seq L self).1.self._bfbs_buffer
        = self._bfbs_buffer := by
  unfold lflatbuffers.encode_object
  by_cases hs : seq.object.is_struct = true
  · simp only [hs, if_true]
    have hr := encode_struct_registry env seq
      ((self._fbb.StartStruct seq.object.minalign).ReserveElements seq.object.bytesize 1).2
      index L { self with _fbb :=
        ((self._fbb.StartStruct seq.object.minalign).ReserveElements seq.object.bytesize 1).1 }
    generalize lflatbuffers.encode_struct env _ index seq L _ = r at hr
    cases ho : r.outcome <;> simp [ho] <;> exact hr
  · simp [hs]

/-- C16: whatever `encode` is given and however it ends (a lookup that fails, a normal
return, a Lua error, an abort), the map of raw schema buffers and the map of build
sequences of the engine it leaves are those of the engine on entry. -/
theorem C16_encode_leaves_registry_unchanged (env : Env) (schema object : String)
    (index : Nat) (L : lua_State) (self : lflatbuffers) :
    (lflatbuffers.encode env schema object index L self).self._schema = self._schema
    ∧ (lflatbuffers.encode env schema object index L self).self._bfbs_buffer
        = self._bfbs_buffer := by
  cases h1 : self._schema.lookup schema with
  | none => simp only [lflatbuffers.encode, h1, and_self]
  | some sequences =>
    cases h2 : sequences.lookup object with
    | none => simp only [lflatbuffers.encode, h1, h2, and_self]
    | some seq =>
      have hr := encode_object_registry env index seq L { self with _fbb := self._fbb.Clear }
      simp only [lflatbuffers.encode, h1, h2]
      generalize lflatbuffers.encode_object env index seq L { self with _fbb := self._fbb.Clear }
        = r at hr
      cases ho : r.1.outcome with
      | returned v =>
        by_cases hv : v < 0 <;> simp [hv] <;> exact hr
      | lua_error => exact hr
      | aborted => exact hr

/-! ## The backtrace of a nested failure -/

/-- C15, evaluated on the structs `Outer { inner:Inner; }` and `Inner { a:int; }` and the
value `{inner = {}}`: `encode_struct` returns `-1` and the backtrace holds `a` alone; the
name `inner` of the enclosing field is not recorded. -/
theorem C15_struct_backtrace_stops_at_innermost_field (ndebug : Bool) :
    (lflatbuffers.encode_struct (sample_env ndebug) (-4) 4 outer_sequence
        (call_stack (.table [("inner", .table [])])) geo_engine).outcome = .returned (-1)
    ∧ (lflatbuffers.encode_struct (sample_env ndebug) (-4) 4 outer_sequence
        (call_stack (.table [("inner", .table [])])) geo_engine).self._error_collector
        = ⟨"missing required field", "", ["a"]⟩ := by
  cases ndebug <;> decide

/-! ## The value a nested field of a table is read from -/

/-- C19, evaluated on the table `Holder { flags:Flags; }` and the value
`{flags = {a = false, b = false}}`. In a build with `NDEBUG`, `encode_table` stores `1`
for `a` and for `b`: `encode_object` is given `index`, so `encode_struct` looks the
fields up in the enclosing value and reads the sub-value itself, a table, as the value
of each field. `encode_object` applied to the sub-value stores `0` and `0`. In a build
with assertions the same call of `encode_table` stops at the assertion
`lua_gettop( L ) == index` of `encode_struct`. -/
theorem C19_nested_table_field_reads_enclosing_value :
    (lflatbuffers.encode_table (sample_env true) 4 holder_sequence
        (call_stack (.table [("flags", flags_off)])) geo_engine).1.outcome = .returned 0
    ∧ (lflatbuffers.encode_table (sample_env true) 4 holder_sequence
        (call_stack (.table [("flags", flags_off)])) geo_engine).1.self._fbb.read_byte (-2)
        = some 1
    ∧ (lflatbuffers.encode_table (sample_env true) 4 holder_sequence
        (call_stack (.table [("flags", flags_off)])) geo_engine).1.self._fbb.read_byte (-1)
        = some 1
    ∧ (lflatbuffers.encode_object (sample_env true) 5 holder_flags_sequence
        (lua_push (call_stack (.table [("flags", flags_off)])) flags_off)
        geo_engine).1.self._fbb.read_byte (-2) = some 0
    ∧ (lflatbuffers.encode_object (sample_env true) 5 holder_flags_sequence
        (lua_push (call_stack (.table [("flags", flags_off)])) flags_off)
        geo_engine).1.self._fbb.read_byte (-1) = some 0
    ∧ (lflatbuffers.encode_table (sample_env false) 4 holder_sequence
        (call_stack (.table [("flags", flags_off)])) geo_engine).1.outcome = .aborted := by
  decide

/-! ## File names -/

/-- C17, evaluated: with the ending `bfbs` the name `a.bfbs`, a one-character stem, is
refused, as are `.bfbs` and `abc.txt`; `ab.bfbs` is accepted. -/
theorem C17_one_character_stem_is_refused :
    is_postfix_file "a.bfbs" "bfbs" = 0
    ∧ is_postfix_file ".bfbs" "bfbs" = 0
    ∧ is_postfix_file "abc.txt" "bfbs" = 0
    ∧ is_postfix_file "ab.bfbs" "bfbs" = 1 := by
  decide

/-! ## Maps -/

theorem lookup_map_set_self {β : Type} (k : String) (v : β) :
    ∀ m : List (String × β), (map_set k v m).lookup k = some v
  | [] => by simp [map_set, List.lookup]
  | (k1, v1) :: rest => by
    by_cases h : k1 = k
    · simp [map_set, h, List.lookup]
    · have h2 : (k == k1) = false := by simpa using fun e => h e.symm
      simp [map_set, h, List.lookup, h2, lookup_map_set_self k v rest]

theorem lookup_map_set_other {β : Type} (k k2 : String) (v : β) (hne : k2 ≠ k) :
    ∀ m : List (String × β), (map_set k v m).lookup k2 = m.lookup k2
  | [] => by
    have h2 : (k2 == k) = false := by simpa using hne
    simp [map_set, List.lookup, h2]
  | (k1, v1) :: rest => by
    by_cases h : k1 = k
    · subst h
      have h2 : (k2 == k1) = false := by simpa using hne
      simp [map_set, List.lookup, h2]
    · simp only [map_set, h, if_false, List.lookup]
      rw [lookup_map_set_other k k2 v hne rest]

theorem lookup_map_erase_self {β : Type} (k : String) :
    ∀ m : List (String × β), (map_erase k m).lookup k = none
  | [] => by simp [map_erase]
  | (k1, v1) :: rest => by
    by_cases h : k1 = k
    · simp [map_erase, h, lookup_map_erase_self k rest]
    · have h2 : (k == k1) = false := by simpa using fun e => h e.symm
      simp [map_erase, h, List.lookup, h2, lookup_map_erase_self k rest]

theorem lookup_map_erase_other {β : Type} (k k2 : String) (hne : k2 ≠ k) :
    ∀ m : List (String × β), (map_erase k m).lookup k2 = m.lookup k2
  | [] => by simp [map_erase]
  | (k1, v1) :: rest => by
    by_cases h : k1 = k
    · subst h
      have h2 : (k2 == k1) = false := by simpa using hne
      simp [map_erase, List.lookup, h2, lookup_map_erase_other k1 k2 hne rest]
    · simp only [map_erase, h, if_false, List.lookup]
      rw [lookup_map_erase_other k k2 hne rest]

/-! ## `make_build_sequence` -/

theorem make_object_sequence_root (env : Env) (schema : Schema) (fuel : Nat)
    (fld : Option Field) (object : Object) (out : sequence)
    (h : make_object_sequence env schema fuel (.mk fld object [] []) object = .ok out) :
    out.field = fld ∧ out.object = object := by
  cases fuel with
  | zero => simp [make_object_sequence] at h
  | succ n =>
    have := make_object_sequence_ok env schema n fld object out h
    exact ⟨this.1, this.2.1⟩

/-- The loop of `make_build_sequence` over objects with distinct names, none of them in
the map yet: each object gets the sequence compiled for it from a fresh entry, and the
other keys are left alone. -/
theorem make_build_sequence_loop_ok (env : Env) (schema : Schema) (fuel : Nat) :
    ∀ (objects : List Object) (m out : List (String × sequence)),
      (objects.map Object.name).Nodup →
      (∀ o ∈ objects, m.lookup o.name = none) →
      make_build_sequence_loop env schema fuel objects m = .ok out →
      (∀ o ∈ objects, ∃ seq, out.lookup o.name = some seq
        ∧ make_object_sequence env schema fuel (.mk none o [] []) o = .ok seq)
      ∧ (∀ k, (∀ o ∈ objects, o.name ≠ k) → out.lookup k = m.lookup k)
  | [], m, out, _, _, h => by
    simp only [make_build_sequence_loop, Except.ok.injEq] at h
    subst h
    exact ⟨fun o ho => absurd ho (List.not_mem_nil _), fun k _ => rfl⟩
  | object :: rest, m, out, hnodup, hfresh, h => by
    have hnone := hfresh object (List.mem_cons_self _ _)
    simp only [make_build_sequence_loop, hnone] at h
    cases hc : make_object_sequence env schema fuel (.mk none object [] []) object with
    | error e => simp [hc] at h
    | ok seq =>
      simp only [hc] at h
      rw [List.map_cons, List.nodup_cons] at hnodup
      have hrest_ne : ∀ o ∈ rest, o.name ≠ object.name := by
        intro o ho heq
        exact hnodup.1 (heq ▸ List.mem_map_of_mem Object.name ho)
      obtain ⟨h1, h2⟩ := make_build_sequence_loop_ok env schema fuel rest
        (map_set object.name seq m) out hnodup.2
        (fun o ho => by
          rw [lookup_map_set_other _ _ _ (hrest_ne o ho)]
          exact hfresh o (List.mem_cons_of_mem _ ho)) h
      refine ⟨?_, ?_⟩
      · intro o ho
        rcases List.mem_cons.1 ho with rfl | ho
        · refine ⟨seq, ?_, hc⟩
          rw [h2 o.name (fun o2 ho2 => hrest_ne o2 ho2), lookup_map_set_self]
        · exact h1 o ho
      · intro k hk
        rw [h2 k (fun o ho => hk o (List.mem_cons_of_mem _ ho)),
          lookup_map_set_other _ _ _ (hk object (List.mem_cons_self _ _)).symm]

/-- C11: when `make_build_sequence( name,schema )` returns, for a schema whose objects
have distinct names, the entry of `name` in `_schema` is a map whose keys are exactly
the names of the objects of the schema; under the name of each object it holds the
sequence that `make_object_sequence` compiles for that object from a fresh root entry
(field `NULL`, that object as root), whatever the entry of `name` held before; and the
entry of every other schema name is the one before the call. -/
theorem C11_make_build_sequence_replaces_entry (env : Env) (fuel : Nat) (name : String)
    (schema : Schema) (self out : lflatbuffers)
    (hnames : (schema.objects.map Object.name).Nodup)
    (h : self.make_build_sequence env fuel name schema = .ok out) :
    ∃ sequences, out._schema.lookup name = some sequences
      ∧ (∀ k, (sequences.lookup k).isSome ↔ ∃ o ∈ schema.objects, o.name = k)
      ∧ (∀ o ∈ schema.objects, ∃ seq, sequences.lookup o.name = some seq
          ∧ seq.object = o ∧ seq.field = none
          ∧ make_object_sequence env schema fuel (.mk none o [] []) o = .ok seq)
      ∧ (∀ other, other ≠ name → out._schema.lookup other = self._schema.lookup other)
      ∧ out._bfbs_buffer = self._bfbs_buffer := by
  unfold lflatbuffers.make_build_sequence at h
  cases hl : make_build_sequence_loop env schema fuel schema.objects [] with
  | error e => simp [hl] at h
  | ok sequences =>
    simp only [hl, Except.ok.injEq] at h
    subst h
    obtain ⟨h1, h2⟩ := make_build_sequence_loop_ok env schema fuel schema.objects []
      sequences hnames (fun _ _ => rfl) hl
    refine ⟨sequences, lookup_map_set_self _ _ _, ?_, ?_,
      fun other hne => lookup_map_set_other _ _ _ hne _, rfl⟩
    · intro k
      constructor
      · intro hk
        by_contra hno
        have := h2 k (fun o ho heq => hno ⟨o, ho, heq⟩)
        rw [this] at hk
        simp at hk
      · rintro ⟨o, ho, rfl⟩
        obtain ⟨seq, hs, _⟩ := h1 o ho
        simp [hs]
    · intro o ho
      obtain ⟨seq, hs, hc⟩ := h1 o ho
      have hr := make_object_sequence_root env schema fuel none o seq hc
      exact ⟨seq, hs, hr.2, hr.1, hc⟩

/-- C11 at the schema `monster_schema`, loaded under the name `geo` into an engine that
holds an older schema of that name. -/
theorem C11_make_build_sequence_replaces_entry_witness :
    (monster_schema.objects.map Object.name).Nodup
    ∧ ∃ out, geo_engine.make_build_sequence (sample_env false) 2 "geo" monster_schema = .ok out
      ∧ ∃ sequences, out._schema.lookup "geo" = some sequences
        ∧ (∀ k, (sequences.lookup k).isSome ↔ ∃ o ∈ monster_schema.objects, o.name = k)
        ∧ (∀ o ∈ monster_schema.objects, ∃ seq, sequences.lookup o.name = some seq
            ∧ seq.object = o ∧ seq.field = none
            ∧ make_object_sequence (sample_env false) monster_schema 2 (.mk none o [] []) o
                = .ok seq)
        ∧ (∀ other, other ≠ "geo" →
            out._schema.lookup other = geo_engine._schema.lookup other)
        ∧ out._bfbs_buffer = geo_engine._bfbs_buffer :=
  ⟨by decide, _, rfl,
    C11_make_build_sequence_replaces_entry (sample_env false) 2 "geo" monster_schema
      geo_engine _ (by decide) rfl⟩

/-! ## Loads that fail -/

/-- C12 as amended: a call `load_bfbs_file( file )` whose `LoadFile` fails, or whose
buffer fails the verification, returns `false` and leaves no raw buffer under `file`;
the raw buffers stored under every other name, and the builder, are those before the
call. -/
theorem C12_failed_load_erases_the_buffer (env : Env) (host : Host) (fuel : Nat)
    (file : String) (self : lflatbuffers)
    (hfail : host.LoadFile file = none
      ∨ ∃ bfbs, host.LoadFile file = some bfbs ∧ host.VerifySchemaBuffer bfbs = false) :
    ∃ out, self.load_bfbs_file env host fuel file = .ok (false, out)
      ∧ out._bfbs_buffer.lookup file = none
      ∧ (∀ other, other ≠ file →
          out._bfbs_buffer.lookup other = self._bfbs_buffer.lookup other)
      ∧ out._fbb = self._fbb := by
  rcases hfail with h | ⟨bfbs, h, hv⟩
  · refine ⟨{ self with
        _bfbs_buffer := map_erase file self._bfbs_buffer,
        _error_collector :=
          { self._error_collector with
            what := "can not load file:" ++ file ++ "," ++ host.strerror file } },
      ?_, lookup_map_erase_self _ _, fun other hne => lookup_map_erase_other _ _ hne _, rfl⟩
    simp only [lflatbuffers.load_bfbs_file, h]
  · refine ⟨{ self with
        _bfbs_buffer := map_erase file self._bfbs_buffer,
        _error_collector :=
          { self._error_collector with
            what := "invalid flatbuffers binary schema file:" ++ file } },
      ?_, lookup_map_erase_self _ _, fun other hne => lookup_map_erase_other _ _ hne _, rfl⟩
    simp only [lflatbuffers.load_bfbs_file, h, hv]
    rfl

/-- C12 amended, at the engine `loaded_engine` and the file `geo.bfbs`, which the host
can no longer read. -/
theorem C12_failed_load_erases_the_buffer_witness :
    (sample_host.LoadFile "geo.bfbs" = none
      ∨ ∃ bfbs, sample_host.LoadFile "geo.bfbs" = some bfbs
          ∧ sample_host.VerifySchemaBuffer bfbs = false)
    ∧ ∃ out, loaded_engine.load_bfbs_file (sample_env false) sample_host 2 "geo.bfbs"
          = .ok (false, out)
      ∧ out._bfbs_buffer.lookup "geo.bfbs" = none
      ∧ (∀ other, other ≠ "geo.bfbs" →
          out._bfbs_buffer.lookup other = loaded_engine._bfbs_buffer.lookup other)
      ∧ out._fbb = loaded_engine._fbb :=
  ⟨Or.inl (by decide),
    C12_failed_load_erases_the_buffer (sample_env false) sample_host 2 "geo.bfbs"
      loaded_engine (Or.inl (by decide))⟩

/-- C12 as stated fails at the engine `loaded_engine`, in which `geo.bfbs` is loaded with
the raw buffer `GEO`, and a host that cannot read `geo.bfbs` any more: the call
returns `false`, no raw buffer is left under `geo.bfbs`, and the build sequences
compiled from it are still in `_schema`. -/
theorem C12_failed_reload_drops_the_old_buffer :
    loaded_engine._bfbs_buffer.lookup "geo.bfbs" = some "GEO"
    ∧ (loaded_engine.load_bfbs_file (sample_env false) sample_host 2 "geo.bfbs").toOption.map
        (fun r => (r.1, r.2._bfbs_buffer.lookup "geo.bfbs",
          (r.2._schema.lookup "geo.bfbs").isSome))
        = some (false, none, true) := by
  decide

theorem load_bfbs_path_loop_failure (env : Env) (host : Host) (fuel : Nat) (suffix : String) :
    ∀ (names : List String) (count : Int) (self out : lflatbuffers),
      0 ≤ count →
      load_bfbs_path_loop env host fuel suffix names count self = .ok (-1, out) →
      out._bfbs_buffer = []
  | [], count, self, out, hc, h => by
    simp only [load_bfbs_path_loop, Except.ok.injEq, Prod.mk.injEq] at h
    omega
  | d_name :: rest, count, self, out, hc, h => by
    simp only [load_bfbs_path_loop] at h
    split at h
    · split at h
      · exact load_bfbs_path_loop_failure env host fuel suffix rest (count + 1) _ out
          (by omega) h
      · simp only [Except.ok.injEq, Prod.mk.injEq, true_and] at h
        rw [← h]
      · simp at h
    · exact load_bfbs_path_loop_failure env host fuel suffix rest count self out hc h

theorem load_bfbs_file_of_load_fails (env : Env) (host : Host) (fuel : Nat) (file : String)
    (self : lflatbuffers) (h : host.load_fails file = true) :
    ∃ out, self.load_bfbs_file env host fuel file = .ok (false, out) := by
  unfold Host.load_fails at h
  cases hl : host.LoadFile file with
  | none =>
    simp only [lflatbuffers.load_bfbs_file, hl]
    exact ⟨_, rfl⟩
  | some buf =>
    simp only [hl] at h
    simp only [lflatbuffers.load_bfbs_file, hl, h, if_true]
    exact ⟨_, rfl⟩

theorem load_bfbs_file_of_compiles (env : Env) (host : Host) (fuel : Nat) (file : String)
    (self : lflatbuffers) (h : host.load_fails file = false)
    (hc : host.compiles env fuel file = true) :
    ∃ out, self.load_bfbs_file env host fuel file = .ok (true, out) := by
  unfold Host.load_fails at h
  unfold Host.compiles at hc
  cases hl : host.LoadFile file with
  | none => simp [hl] at h
  | some buf =>
    simp only [hl] at h hc
    cases hm : make_build_sequence_loop env (host.GetSchema buf) fuel
        (host.GetSchema buf).objects [] with
    | ok seqs =>
      simp only [lflatbuffers.load_bfbs_file, hl, h, lflatbuffers.make_build_sequence, hm]
      exact ⟨_, rfl⟩
    | error e => simp [hm] at hc

/-- The loop of `load_bfbs_path` over names among which a schema file fails to load,
while `make_build_sequence` returns for the schema files that load: the loop returns
`-1` and leaves no raw buffer. -/
theorem load_bfbs_path_loop_fails (env : Env) (host : Host) (fuel : Nat) (suffix : String) :
    ∀ (names : List String) (count : Int) (self : lflatbuffers),
      (∃ f ∈ names, host.is_schema_file suffix f = true ∧ host.load_fails f = true) →
      (∀ f ∈ names, host.is_schema_file suffix f = true → host.load_fails f = false →
        host.compiles env fuel f = true) →
      ∃ out, load_bfbs_path_loop env host fuel suffix names count self = .ok (-1, out)
        ∧ out._bfbs_buffer = []
  | [], count, self, hbad, _ => by
    obtain ⟨f, hf, _⟩ := hbad
    simp at hf
  | d_name :: rest, count, self, hbad, hgood => by
    have hrest : (∀ f ∈ rest, host.is_schema_file suffix f = true → host.load_fails f = false →
        host.compiles env fuel f = true) :=
      fun f hf => hgood f (List.mem_cons_of_mem _ hf)
    by_cases hm : host.is_schema_file suffix d_name = true
    · have hm2 : (host.is_regular d_name && is_postfix_file d_name suffix != 0) = true := hm
      cases hl : host.load_fails d_name with
      | true =>
        obtain ⟨out, ho⟩ := load_bfbs_file_of_load_fails env host fuel d_name self hl
        exact ⟨{ out with _bfbs_buffer := [] }, by
          rw [load_bfbs_path_loop, if_pos hm2, ho], rfl⟩
      | false =>
        obtain ⟨out, ho⟩ := load_bfbs_file_of_compiles env host fuel d_name self hl
          (hgood d_name (List.mem_cons_self _ _) hm hl)
        have hbad2 : ∃ f ∈ rest, host.is_schema_file suffix f = true
            ∧ host.load_fails f = true := by
          obtain ⟨f, hf, h1, h2⟩ := hbad
          rcases List.mem_cons.1 hf with h | h
          · subst h
            rw [hl] at h2
            exact absurd h2 (by decide)
          · exact ⟨f, h, h1, h2⟩
        obtain ⟨o2, h3, h4⟩ :=
          load_bfbs_path_loop_fails env host fuel suffix rest (count + 1) out hbad2 hrest
        exact ⟨o2, by rw [load_bfbs_path_loop, if_pos hm2, ho]; exact h3, h4⟩
    · have hm2 : ¬ (host.is_regular d_name && is_postfix_file d_name suffix != 0) = true := hm
      have hbad2 : ∃ f ∈ rest, host.is_schema_file suffix f = true
          ∧ host.load_fails f = true := by
        obtain ⟨f, hf, h1, h2⟩ := hbad
        rcases List.mem_cons.1 hf with h | h
        · subst h
          exact absurd h1 hm
        · exact ⟨f, h, h1, h2⟩
      obtain ⟨o2, h3, h4⟩ :=
        load_bfbs_path_loop_fails env host fuel suffix rest count self hbad2 hrest
      exact ⟨o2, by rw [load_bfbs_path_loop, if_neg hm2]; exact h3, h4⟩

/-- C13 as amended: when the directory can be opened, the load of one of its schema
files fails (the file cannot be read or fails the verification) and
`make_build_sequence` returns for the schema files that load, `load_bfbs_path` returns
`-1` and no raw buffer is stored afterwards: the buffers loaded earlier in the scan and
the buffers loaded by earlier calls are all discarded. -/
theorem C13_failed_scan_clears_all_buffers (env : Env) (host : Host) (fuel : Nat)
    (path suffix : String) (self : lflatbuffers) (names : List String)
    (hopen : host.opendir path = some names)
    (hfails : ∃ f ∈ names, host.is_schema_file suffix f = true ∧ host.load_fails f = true)
    (hcompiles : ∀ f ∈ names, host.is_schema_file suffix f = true →
      host.load_fails f = false → host.compiles env fuel f = true) :
    ∃ out, self.load_bfbs_path env host fuel path suffix = .ok (-1, out)
      ∧ out._bfbs_buffer = [] := by
  simp only [lflatbuffers.load_bfbs_path, hopen]
  exact load_bfbs_path_loop_fails env host fuel suffix names 0 self hfails hcompiles

/-- C13 amended, at the directory `schemas` of the sample host, where `ab.bfbs` loads
and `cd.bfbs` fails the verification. -/
theorem C13_failed_scan_clears_all_buffers_witness :
    sample_host.opendir "schemas" = some [".", "..", "ab.bfbs", "cd.bfbs"]
    ∧ (sample_host.is_schema_file "bfbs" "cd.bfbs" = true
      ∧ sample_host.load_fails "cd.bfbs" = true)
    ∧ ∃ out, loaded_engine.load_bfbs_path (sample_env false) sample_host 2 "schemas" "bfbs"
          = .ok (-1, out)
      ∧ out._bfbs_buffer = [] :=
  ⟨rfl, by decide,
    C13_failed_scan_clears_all_buffers (sample_env false) sample_host 2 "schemas" "bfbs"
      loaded_engine _ rfl ⟨"cd.bfbs", by decide, by decide, by decide⟩ (by decide)⟩

/-- C13 as stated fails at the directory `schemas` of the sample host and the engine
`loaded_engine`: the scan loads `ab.bfbs`, fails on `cd.bfbs` and returns `-1`;
afterwards the raw buffer of `geo.bfbs`, loaded by an earlier call, is gone, and the
build sequences of `ab.bfbs`, loaded earlier in the scan, are still in `_schema`, so the
registry is not the registry before the call. -/
theorem C13_failed_scan_does_not_restore_registry :
    loaded_engine._bfbs_buffer.lookup "geo.bfbs" = some "GEO"
    ∧ (loaded_engine._schema.lookup "ab.bfbs").isSome = false
    ∧ (loaded_engine.load_bfbs_path (sample_env false) sample_host 2 "schemas"
        "bfbs").toOption.map
        (fun r => (r.1, r.2._bfbs_buffer.lookup "geo.bfbs",
          (r.2._schema.lookup "ab.bfbs").isSome, (r.2._schema.lookup "geo.bfbs").isSome))
        = some (-1, none, true, true) := by
  decide

/-! ## Termination of the compiler -/

theorem make_object_sequence_loop_out_of_fuel (env : Env)
    (compile : sequence → Object → Except Halt sequence) (schema : Schema) :
    ∀ (fields : List Field) (seq : sequence),
      make_object_sequence_loop env compile schema fields seq = .error .out_of_fuel →
      ∃ f ∈ fields, is_nested_field f = true
        ∧ ∃ so, Schema_objects_Get schema f.type.index = .ok so
          ∧ ∃ s0, compile s0 so = .error .out_of_fuel
  | [], seq, h => by simp [make_object_sequence_loop] at h
  | fld :: rest, seq, h => by
    simp only [make_object_sequence_loop] at h
    cases hstep : make_object_sequence_field env compile schema seq fld with
    | ok seq1 =>
      simp only [hstep] at h
      obtain ⟨f, hf, hn, so, hg, s0, hc⟩ :=
        make_object_sequence_loop_out_of_fuel env compile schema rest seq1 h
      exact ⟨f, List.mem_cons_of_mem _ hf, hn, so, hg, s0, hc⟩
    | error e =>
      simp only [hstep, Except.error.injEq] at h
      subst h
      rcases field_classes fld with hn | hs | h0
      · rw [make_object_sequence_field_nested env compile schema seq fld hn] at hstep
        cases hg : Schema_objects_Get schema fld.type.index with
        | error e =>
          have hne : e = .out_of_range := by
            unfold Schema_objects_Get at hg
            split at hg
            · split at hg <;> simp at hg
              exact hg.symm
            · simp at hg
              exact hg.symm
          simp [hg, hne] at hstep
        | ok so =>
          simp only [hg, PUSH_SEQUENCE] at hstep
          cases hc : compile (.mk (some fld) so [] []) so with
          | ok sub => simp [hc] at hstep
          | error e =>
            simp only [hc, Except.error.injEq] at hstep
            subst hstep
            exact ⟨fld, List.mem_cons_self _ _, hn, so, hg, _, hc⟩
      · rw [make_object_sequence_field_scalar env compile schema seq fld hs] at hstep
        simp at hstep
      · rw [make_object_sequence_field_none env compile schema seq fld h0] at hstep
        split at hstep <;> simp at hstep

/-- Running out of fuel exhibits a path of the object-reference graph with as many
edges as there was fuel. -/
theorem make_object_sequence_out_of_fuel_chain (env : Env) (schema : Schema) :
    ∀ (fuel : Nat) (seq : sequence) (object : Object),
      make_object_sequence env schema fuel seq object = .error .out_of_fuel →
      ∃ l : List Object, l.length = fuel ∧ List.Chain (Reaches schema) object l
  | 0, _, _, _ => ⟨[], rfl, List.Chain.nil⟩
  | fuel + 1, seq, object, h => by
    simp only [make_object_sequence] at h
    obtain ⟨f, hf, hn, so, hg, s0, hc⟩ :=
      make_object_sequence_loop_out_of_fuel env _ schema object.fields seq h
    obtain ⟨l, hl, hchain⟩ := make_object_sequence_out_of_fuel_chain env schema fuel s0 so hc
    exact ⟨so :: l, by simp [hl], List.Chain.cons ⟨f, hf, hn, hg⟩ hchain⟩

theorem chain_ranks_decrease (schema : Schema) (rank : Object → Nat)
    (hrank : ∀ o ∈ schema.objects, ∀ f ∈ o.fields, is_nested_field f = true →
      ∃ sub, Schema_objects_Get schema f.type.index = .ok sub ∧ rank sub < rank o) :
    ∀ (l : List Object) (o : Object), o ∈ schema.objects → List.Chain (Reaches schema) o l →
      (∀ x ∈ l, x ∈ schema.objects ∧ rank x < rank o) ∧ l.Nodup
  | [], _, _, _ => ⟨fun x hx => absurd hx (List.not_mem_nil _), List.nodup_nil⟩
  | b :: l, o, ho, hchain => by
    rw [List.chain_cons] at hchain
    obtain ⟨⟨f, hf, hn, hg⟩, hrest⟩ := hchain
    obtain ⟨sub, hg2, hlt⟩ := hrank o ho f hf hn
    have hsub : sub = b := by
      rw [hg] at hg2
      exact (Except.ok.inj hg2).symm
    subst hsub
    have hb := Schema_objects_Get_mem schema _ sub hg
    obtain ⟨h1, h2⟩ := chain_ranks_decrease schema rank hrank l sub hb hrest
    refine ⟨?_, ?_⟩
    · intro x hx
      rcases List.mem_cons.1 hx with rfl | hx
      · exact ⟨hb, hlt⟩
      · exact ⟨(h1 x hx).1, lt_trans (h1 x hx).2 hlt⟩
    · rw [List.nodup_cons]
      exact ⟨fun hmem => absurd (h1 sub hmem).2 (lt_irrefl _), h2⟩

/-- In an acyclic schema a path of the object-reference graph that starts at an object
of the schema has fewer edges than the schema has objects. -/
theorem chain_shorter_than_objects (schema : Schema) (hacyclic : Acyclic schema)
    (o : Object) (ho : o ∈ schema.objects) (l : List Object)
    (hchain : List.Chain (Reaches schema) o l) : l.length < schema.objects.length := by
  obtain ⟨rank, hrank⟩ := hacyclic
  obtain ⟨h1, h2⟩ := chain_ranks_decrease schema rank hrank l o ho hchain
  have hnodup : (o :: l).Nodup := by
    rw [List.nodup_cons]
    exact ⟨fun hmem => absurd (h1 o hmem).2 (lt_irrefl _), h2⟩
  have hsub : (o :: l) ⊆ schema.objects := by
    intro x hx
    rcases List.mem_cons.1 hx with rfl | hx
    · exact ho
    · exact (h1 x hx).1
  have := (List.subperm_of_subset hnodup hsub).length_le
  simpa using this

theorem make_object_sequence_terminates (env : Env) (schema : Schema)
    (hacyclic : Acyclic schema) (o : Object) (ho : o ∈ schema.objects) (seq : sequence)
    (fuel : Nat) (hfuel : schema.objects.length ≤ fuel) :
    make_object_sequence env schema fuel seq o ≠ .error .out_of_fuel := by
  intro h
  obtain ⟨l, hl, hchain⟩ := make_object_sequence_out_of_fuel_chain env schema fuel seq o h
  have := chain_shorter_than_objects schema hacyclic o ho l hchain
  omega

theorem make_build_sequence_loop_terminates (env : Env) (schema : Schema)
    (hacyclic : Acyclic schema) (fuel : Nat) (hfuel : schema.objects.length ≤ fuel) :
    ∀ (objects : List Object) (m : List (String × sequence)),
      (∀ o ∈ objects, o ∈ schema.objects) →
      make_build_sequence_loop env schema fuel objects m ≠ .error .out_of_fuel
  | [], m, _ => by simp [make_build_sequence_loop]
  | o :: rest, m, hmem => by
    simp only [make_build_sequence_loop]
    have ht := fun seq => make_object_sequence_terminates env schema hacyclic o
      (hmem o (List.mem_cons_self _ _)) seq fuel hfuel
    generalize (match m.lookup o.name with
      | some old => sequence.mk old.field o old.nested old.scalar
      | none => sequence.mk none o [] []) = seq0
    cases hc : make_object_sequence env schema fuel seq0 o with
    | ok out =>
      exact make_build_sequence_loop_terminates env schema hacyclic fuel hfuel rest _
        (fun x hx => hmem x (List.mem_cons_of_mem _ hx))
    | error e =>
      intro h
      simp only [Except.error.injEq] at h
      exact ht seq0 (h ▸ hc)

/-- C20: in a schema whose object-reference graph is acyclic, `make_object_sequence`
does not run out of fuel on any object of the schema, from any entry, when it is given
as many nested activations as the schema has objects (or more): its recursion is at most
that deep, and it ends. With the same fuel every call made by `make_build_sequence`
ends, and so does `make_build_sequence`. -/
theorem C20_compilation_terminates_on_acyclic_schema (env : Env) (schema : Schema)
    (hacyclic : Acyclic schema) :
    (∀ o ∈ schema.objects, ∀ (seq : sequence) (fuel : Nat), schema.objects.length ≤ fuel →
      make_object_sequence env schema fuel seq o ≠ .error .out_of_fuel)
    ∧ (∀ (self : lflatbuffers) (name : String) (fuel : Nat), schema.objects.length ≤ fuel →
      self.make_build_sequence env fuel name schema ≠ .error .out_of_fuel) := by
  refine ⟨fun o ho seq fuel hfuel =>
    make_object_sequence_terminates env schema hacyclic o ho seq fuel hfuel, ?_⟩
  intro self name fuel hfuel h
  unfold lflatbuffers.make_build_sequence at h
  cases hl : make_build_sequence_loop env schema fuel schema.objects [] with
  | ok m => simp [hl] at h
  | error e =>
    simp only [hl, Except.error.injEq] at h
    exact make_build_sequence_loop_terminates env schema hacyclic fuel hfuel schema.objects []
      (fun _ hx => hx) (h ▸ hl)

/-- C20 at the schema `monster_schema`, with its two objects. -/
theorem C20_compilation_terminates_on_acyclic_schema_witness :
    Acyclic monster_schema
    ∧ make_object_sequence (sample_env false) monster_schema 2 (.mk none Monster [] []) Monster
        ≠ .error .out_of_fuel
    ∧ geo_engine.make_build_sequence (sample_env false) 2 "geo" monster_schema
        ≠ .error .out_of_fuel :=
  ⟨monster_schema_acyclic,
    (C20_compilation_terminates_on_acyclic_schema (sample_env false) monster_schema
      monster_schema_acyclic).1 Monster (List.mem_cons_self _ _) _ 2 (le_refl _),
    (C20_compilation_terminates_on_acyclic_schema (sample_env false) monster_schema
      monster_schema_acyclic).2 geo_engine "geo" 2 (le_refl _)⟩

/-- A table that refers to itself: `make_object_sequence` runs out of fuel whatever
the fuel. -/
theorem self_reference_runs_out_of_fuel (env : Env) :
    ∀ (fuel : Nat) (seq : sequence),
      make_object_sequence env node_schema fuel seq Node = .error .out_of_fuel
  | 0, _ => rfl
  | fuel + 1, seq => by
    simp only [make_object_sequence, Node, make_object_sequence_loop]
    rw [make_object_sequence_field_nested env _ node_schema seq node_next (by decide)]
    have hg : Schema_objects_Get node_schema node_next.type.index = .ok Node := rfl
    simp only [hg, PUSH_SEQUENCE]
    rw [self_reference_runs_out_of_fuel env fuel]

/-! ## The order of the calls of `encode_table` -/

@[simp] theorem frame_calls (self : lflatbuffers) (ec : error_collector)
    (s : List (Int × Option Nat)) : (self.frame ec s)._fbb.calls = self._fbb.calls := rfl

/-- C14 as stated fails for the struct `Padded { n:int; on:bool; }` and the value
`{n = true, on = true}`: from an engine that was never used and from the same engine
after `encode` of `Flags` with `{a = true, b = true}`, `encode` returns `0` both times,
but the finished buffers differ: the padding bytes of the struct, which `encode_struct`
never stores, are indeterminate in the first and hold the bytes `1`, `1` of the earlier
call in the second. -/
theorem C14_padding_keeps_bytes_of_previous_call :
    (lflatbuffers.encode (sample_env false) "pad" "Padded" 4
        (call_stack (.table [("n", .boolean true), ("on", .boolean true)]))
        pad_engine).outcome = .returned 0
    ∧ (lflatbuffers.encode (sample_env false) "pad" "Padded" 4
        (call_stack (.table [("n", .boolean true), ("on", .boolean true)]))
        (pad_engine_used false)).outcome = .returned 0
    ∧ finished_buffer (lflatbuffers.encode (sample_env false) "pad" "Padded" 4
        (call_stack (.table [("n", .boolean true), ("on", .boolean true)]))
        pad_engine).self._fbb
        = [some 4, some 0, some 0, some 0, some 0, some 0, some 0, some 0, some 1,
            none, none, none]
    ∧ finished_buffer (lflatbuffers.encode (sample_env false) "pad" "Padded" 4
        (call_stack (.table [("n", .boolean true), ("on", .boolean true)]))
        (pad_engine_used false)).self._fbb
        = [some 4, some 0, some 0, some 0, some 0, some 0, some 0, some 0, some 1,
            some 0, some 1, some 1]
    ∧ finished_buffer (lflatbuffers.encode (sample_env false) "pad" "Padded" 4
        (call_stack (.table [("n", .boolean true), ("on", .boolean true)]))
        pad_engine).self._fbb
      ≠ finished_buffer (lflatbuffers.encode (sample_env false) "pad" "Padded" 4
        (call_stack (.table [("n", .boolean true), ("on", .boolean true)]))
        (pad_engine_used false)).self._fbb := by
  decide

theorem Agree.store {p1 p2 : List (Int × Option Nat)} {b1 b2 : FlatBufferBuilder}
    (h : Agree p1 p2 b1 b2) (p : Int) (bs : List (Option Nat)) :
    Agree p1 p2 (b1.store p bs) (b2.store p bs) := by
  obtain ⟨h1, h2, h3, h4, h5, h6, st, h7, h8⟩ := h
  exact ⟨h1, h2, h3, h4, h5, h6,
    (bs.enum.map (fun ib => (p + (ib.1 : Int), ib.2))).reverse ++ st,
    by simp [FlatBufferBuilder.store, h7], by simp [FlatBufferBuilder.store, h8]⟩

theorem Agree.make_space {p1 p2 : List (Int × Option Nat)} {b1 b2 : FlatBufferBuilder}
    (h : Agree p1 p2 b1 b2) (n : Nat) :
    Agree p1 p2 (b1.make_space n).1 (b2.make_space n).1
    ∧ (b1.make_space n).2 = (b2.make_space n).2 := by
  obtain ⟨h1, h2, h3, h4, h5, h6, st, h7, h8⟩ := h
  exact ⟨⟨by simp [FlatBufferBuilder.make_space, h1], h2, h3, h4, h5, h6, st, h7, h8⟩,
    by simp [FlatBufferBuilder.make_space, h1]⟩

theorem Agree.fill {p1 p2 : List (Int × Option Nat)} {b1 b2 : FlatBufferBuilder}
    (h : Agree p1 p2 b1 b2) (n : Nat) : Agree p1 p2 (b1.fill n) (b2.fill n) := by
  unfold FlatBufferBuilder.fill
  have hm := h.make_space n
  simp only
  rw [hm.2]
  exact hm.1.store _ _

theorem Agree.Align {p1 p2 : List (Int × Option Nat)} {b1 b2 : FlatBufferBuilder}
    (h : Agree p1 p2 b1 b2) (n : Nat) : Agree p1 p2 (b1.Align n) (b2.Align n) := by
  unfold FlatBufferBuilder.Align
  have hmin : b1.minalign = b2.minalign := h.2.1
  have hsize : b1.size = b2.size := h.1
  by_cases hc : n > b1.minalign
  · have hc2 : n > b2.minalign := hmin ▸ hc
    simp only [hc, hc2, if_true]
    have h0 : Agree p1 p2 { b1 with minalign := n } { b2 with minalign := n } := by
      obtain ⟨h1, h2, h3, h4, h5, h6, h7⟩ := h
      exact ⟨h1, rfl, h3, h4, h5, h6, h7⟩
    have := h0.fill (FlatBufferBuilder.PaddingBytes b1.size n)
    simpa [hsize] using this
  · have hc2 : ¬ n > b2.minalign := hmin ▸ hc
    simp only [hc, hc2, if_false]
    have := h.fill (FlatBufferBuilder.PaddingBytes b1.size n)
    simpa [hsize] using this

theorem Agree.PushBytes {p1 p2 : List (Int × Option Nat)} {b1 b2 : FlatBufferBuilder}
    (h : Agree p1 p2 b1 b2) (w : Nat) (bs : List (Option Nat)) :
    Agree p1 p2 (b1.PushBytes w bs).1 (b2.PushBytes w bs).1
    ∧ (b1.PushBytes w bs).2 = (b2.PushBytes w bs).2 := by
  unfold FlatBufferBuilder.PushBytes
  have hm := (h.Align w).make_space w
  simp only
  rw [hm.2]
  exact ⟨hm.1.store _ _, hm.1.1⟩

theorem Agree.record {p1 p2 : List (Int × Option Nat)} {b1 b2 : FlatBufferBuilder}
    (h : Agree p1 p2 b1 b2) (c : FbbCall) : Agree p1 p2 (b1.record c) (b2.record c) := h

theorem Agree.Clear (b1 b2 : FlatBufferBuilder) : Agree b1.buf b2.buf b1.Clear b2.Clear :=
  ⟨rfl, rfl, rfl, rfl, rfl, rfl, [], rfl, rfl⟩

theorem Agree.Finish {p1 p2 : List (Int × Option Nat)} {b1 b2 : FlatBufferBuilder}
    (h : Agree p1 p2 b1 b2) (root : Option Nat) :
    Agree p1 p2 (b1.Finish root) (b2.Finish root) := by
  unfold FlatBufferBuilder.Finish
  have h0 := h.record (.Finish root)
  have hsize : (b1.record (.Finish root)).size = (b2.record (.Finish root)).size := h0.1
  have hmin : (b1.record (.Finish root)).minalign = (b2.record (.Finish root)).minalign :=
    h0.2.1
  have h1 := h0.fill (FlatBufferBuilder.PaddingBytes ((b1.record (.Finish root)).size + 4)
    (b1.record (.Finish root)).minalign)
  simp only
  rw [← hsize, ← hmin]
  generalize (b1.record (.Finish root)).fill _ = c1 at h1 ⊢
  generalize (b2.record (.Finish root)).fill _ = c2 at h1 ⊢
  have hfin : ∀ d1 d2 : FlatBufferBuilder, Agree p1 p2 d1 d2 →
      Agree p1 p2 { d1 with finished := true } { d2 with finished := true } := by
    intro d1 d2 hd
    obtain ⟨a1, a2, a3, _, a5, a6, a7⟩ := hd
    exact ⟨a1, a2, a3, rfl, a5, a6, a7⟩
  cases root with
  | none =>
    exact hfin _ _ ((h1.Align 4).PushBytes 4 (List.replicate 4 none)).1
  | some off =>
    have ha := h1.Align 4
    have hs : (c1.Align 4).size = (c2.Align 4).size := ha.1
    simp only [FlatBufferBuilder.ReferTo, FlatBufferBuilder.PushElement]
    rw [hs]
    exact hfin _ _ (ha.PushBytes 4 _).1

theorem Agree.frame {p1 p2 : List (Int × Option Nat)} {s1 s2 : lflatbuffers}
    (h : Agree p1 p2 s1._fbb s2._fbb) (ec : error_collector)
    (stores : List (Int × Option Nat)) :
    Agree p1 p2 (s1.frame ec stores)._fbb (s2.frame ec stores)._fbb := by
  obtain ⟨h1, h2, h3, h4, h5, h6, st, h7, h8⟩ := h
  exact ⟨h1, h2, h3, h4, h5, h6, stores ++ st,
    by simp [lflatbuffers.frame, h7], by simp [lflatbuffers.frame, h8]⟩

/-- From two engines that differ in the arena alone, the arenas agreeing, `encode_object`
ends the same way, with the same stack, error collector and offset, and with arenas
that agree. -/
theorem encode_object_agree (env : Env) (index : Nat) (seq : sequence) (L : lua_State)
    (self : lflatbuffers) (p1 p2 : List (Int × Option Nat)) (b1 b2 : FlatBufferBuilder)
    (h : Agree p1 p2 b1 b2) :
    (lflatbuffers.encode_object env index seq L { self with _fbb := b1 }).1.outcome
      = (lflatbuffers.encode_object env index seq L { self with _fbb := b2 }).1.outcome
    ∧ (lflatbuffers.encode_object env index seq L { self with _fbb := b1 }).1.L
      = (lflatbuffers.encode_object env index seq L { self with _fbb := b2 }).1.L
    ∧ (lflatbuffers.encode_object env index seq L { self with _fbb := b1 }).1.self._error_collector
      = (lflatbuffers.encode_object env index seq L { self with _fbb := b2 }).1.self._error_collector
    ∧ (lflatbuffers.encode_object env index seq L { self with _fbb := b1 }).2
      = (lflatbuffers.encode_object env index seq L { self with _fbb := b2 }).2
    ∧ Agree p1 p2
        (lflatbuffers.encode_object env index seq L { self with _fbb := b1 }).1.self._fbb
        (lflatbuffers.encode_object env index seq L { self with _fbb := b2 }).1.self._fbb := by
  unfold lflatbuffers.encode_object
  by_cases hs : seq.object.is_struct = true
  · simp only [hs, if_true]
    have hst : Agree p1 p2 (b1.StartStruct seq.object.minalign)
        (b2.StartStruct seq.object.minalign) := (h.record _).Align _
    have hre := (hst.record (.ReserveElements seq.object.bytesize 1)).make_space
      (seq.object.bytesize * 1)
    have hptr : ((b1.StartStruct seq.object.minalign).ReserveElements seq.object.bytesize 1).2
        = ((b2.StartStruct seq.object.minalign).ReserveElements seq.object.bytesize 1).2 :=
      hre.2
    obtain ⟨o, L1, ec1, s1, hf⟩ := encode_struct_frame env seq
      ((b1.StartStruct seq.object.minalign).ReserveElements seq.object.bytesize 1).2
      index L self._error_collector
    have hf1 := hf { self with _fbb :=
      ((b1.StartStruct seq.object.minalign).ReserveElements seq.object.bytesize 1).1 } rfl
    have hf2 := hf { self with _fbb :=
      ((b2.StartStruct seq.object.minalign).ReserveElements seq.object.bytesize 1).1 } rfl
    rw [hptr] at hf2
    have hfr : Agree p1 p2
        (({ self with _fbb :=
          ((b1.StartStruct seq.object.minalign).ReserveElements seq.object.bytesize 1).1 }
            : lflatbuffers).frame ec1 s1)._fbb
        (({ self with _fbb :=
          ((b2.StartStruct seq.object.minalign).ReserveElements seq.object.bytesize 1).1 }
            : lflatbuffers).frame ec1 s1)._fbb :=
      Agree.frame hre.1 ec1 s1
    simp only [hf1]
    rw [hf2]
    cases o with
    | returned v =>
      refine ⟨rfl, rfl, rfl, ?_, ?_⟩
      · simp only [FlatBufferBuilder.EndStruct]
        exact congrArg some hfr.1
      · exact hfr.record .EndStruct
    | lua_error => exact ⟨rfl, rfl, rfl, rfl, hfr⟩
    | aborted => exact ⟨rfl, rfl, rfl, rfl, hfr⟩
  · simp only [hs]
    exact ⟨rfl, rfl, rfl, rfl, h⟩

theorem read_byte_of_stored (b1 b2 : FlatBufferBuilder) (stores p1 p2 : List (Int × Option Nat))
    (h1 : b1.buf = stores ++ p1) (h2 : b2.buf = stores ++ p2) (a : Int)
    (ha : (stores.lookup a).isSome = true) : b1.read_byte a = b2.read_byte a := by
  unfold FlatBufferBuilder.read_byte
  rw [h1, h2]
  clear h1 h2
  induction stores with
  | nil => simp at ha
  | cons e rest ih =>
    obtain ⟨k, v⟩ := e
    by_cases hk : (a == k) = true
    · simp [List.lookup, hk]
    · have hk2 : (a == k) = false := by simpa using hk
      simp only [List.cons_append, List.lookup, hk2] at ha ⊢
      exact ih ha

/-- C14 as amended: when the schema and object lookups succeed, `encode` clears the
builder first, and from any two arenas it ends the same way, with the same stack and
error collector, and leaves builders that agree on size, alignment, flags, field
locations and vtables and in which the same bytes were stored at the same addresses on
top of what each arena held; every byte stored during the call reads the same in both.
A byte of the finished buffer that the call does not store keeps what the arena held
before. -/
theorem C14_encode_agrees_from_any_arena (env : Env) (schema object : String) (index : Nat)
    (L : lua_State) (self : lflatbuffers) (b1 b2 : FlatBufferBuilder)
    (sequences : List (String × sequence)) (seq : sequence)
    (hschema : self._schema.lookup schema = some sequences)
    (hobject : sequences.lookup object = some seq) :
    (lflatbuffers.encode env schema object index L { self with _fbb := b1 }).outcome
      = (lflatbuffers.encode env schema object index L { self with _fbb := b2 }).outcome
    ∧ (lflatbuffers.encode env schema object index L { self with _fbb := b1 }).L
      = (lflatbuffers.encode env schema object index L { self with _fbb := b2 }).L
    ∧ (lflatbuffers.encode env schema object index L { self with _fbb := b1 }).self._error_collector
      = (lflatbuffers.encode env schema object index L { self with _fbb := b2 }).self._error_collector
    ∧ Agree b1.buf b2.buf
        (lflatbuffers.encode env schema object index L { self with _fbb := b1 }).self._fbb
        (lflatbuffers.encode env schema object index L { self with _fbb := b2 }).self._fbb
    ∧ ∃ stores,
        (lflatbuffers.encode env schema object index L { self with _fbb := b1 }).self._fbb.buf
          = stores ++ b1.buf
        ∧ (lflatbuffers.encode env schema object index L { self with _fbb := b2 }).self._fbb.buf
          = stores ++ b2.buf
        ∧ ∀ a, (stores.lookup a).isSome = true →
          (lflatbuffers.encode env schema object index L
              { self with _fbb := b1 }).self._fbb.read_byte a
            = (lflatbuffers.encode env schema object index L
              { self with _fbb := b2 }).self._fbb.read_byte a := by
  have key :
      (lflatbuffers.encode env schema object index L { self with _fbb := b1 }).outcome
        = (lflatbuffers.encode env schema object index L { self with _fbb := b2 }).outcome
      ∧ (lflatbuffers.encode env schema object index L { self with _fbb := b1 }).L
        = (lflatbuffers.encode env schema object index L { self with _fbb := b2 }).L
      ∧ (lflatbuffers.encode env schema object index L
            { self with _fbb := b1 }).self._error_collector
        = (lflatbuffers.encode env schema object index L
            { self with _fbb := b2 }).self._error_collector
      ∧ Agree b1.buf b2.buf
          (lflatbuffers.encode env schema object index L { self with _fbb := b1 }).self._fbb
          (lflatbuffers.encode env schema object index L { self with _fbb := b2 }).self._fbb := by
    have h1 : ({ self with _fbb := b1 } : lflatbuffers)._schema.lookup schema
        = some sequences := hschema
    have h2 : ({ self with _fbb := b2 } : lflatbuffers)._schema.lookup schema
        = some sequences := hschema
    simp only [lflatbuffers.encode, h1, h2, hobject]
    obtain ⟨e1, e2, e3, e4, e5⟩ := encode_object_agree env index seq L self b1.buf b2.buf
      b1.Clear b2.Clear (Agree.Clear b1 b2)
    generalize lflatbuffers.encode_object env index seq L { self with _fbb := b1.Clear } = r1
      at e1 e2 e3 e4 e5
    generalize lflatbuffers.encode_object env index seq L { self with _fbb := b2.Clear } = r2
      at e1 e2 e3 e4 e5
    show (match r1.1.outcome with
        | .returned v => _
        | o => _ : Result).outcome = (match r2.1.outcome with
        | .returned v => _
        | o => _ : Result).outcome ∧ _
    rw [← e1]
    cases ho : r1.1.outcome with
    | returned v =>
      by_cases hv : v < 0
      · simp only [hv, if_true]
        exact ⟨trivial, e2, by simp [e3], e5⟩
      · simp only [hv, if_false]
        exact ⟨trivial, e2, e3, e4 ▸ e5.Finish r1.2⟩
    | lua_error => exact ⟨rfl, e2, e3, e5⟩
    | aborted => exact ⟨rfl, e2, e3, e5⟩
  obtain ⟨k1, k2, k3, k4⟩ := key
  have k5 := k4
  obtain ⟨_, _, _, _, _, _, stores, hs1, hs2⟩ := k5
  exact ⟨k1, k2, k3, k4, stores, hs1, hs2,
    fun a ha => read_byte_of_stored _ _ stores _ _ hs1 hs2 a ha⟩

/-- C14 amended, at the struct `Padded`, from a builder never used and from the builder
left by an earlier call of `encode`. -/
theorem C14_encode_agrees_from_any_arena_witness :
    pad_engine._schema.lookup "pad"
      = some [("Flags", .mk none Flags [] [flags_a, flags_b]),
          ("Padded", .mk none Padded [] [padded_n, padded_on])]
    ∧ List.lookup "Padded" [("Flags", sequence.mk none Flags [] [flags_a, flags_b]),
          ("Padded", sequence.mk none Padded [] [padded_n, padded_on])]
      = some (.mk none Padded [] [padded_n, padded_on])
    ∧ (lflatbuffers.encode (sample_env false) "pad" "Padded" 4
        (call_stack (.table [("n", .boolean true), ("on", .boolean true)]))
        { pad_engine with _fbb := fresh_builder }).outcome
      = (lflatbuffers.encode (sample_env false) "pad" "Padded" 4
        (call_stack (.table [("n", .boolean true), ("on", .boolean true)]))
        { pad_engine with _fbb := (pad_engine_used false)._fbb }).outcome
    ∧ Agree fresh_builder.buf (pad_engine_used false)._fbb.buf
        (lflatbuffers.encode (sample_env false) "pad" "Padded" 4
          (call_stack (.table [("n", .boolean true), ("on", .boolean true)]))
          { pad_engine with _fbb := fresh_builder }).self._fbb
        (lflatbuffers.encode (sample_env false) "pad" "Padded" 4
          (call_stack (.table [("n", .boolean true), ("on", .boolean true)]))
          { pad_engine with _fbb := (pad_engine_used false)._fbb }).self._fbb :=
  ⟨rfl, rfl,
    (C14_encode_agrees_from_any_arena (sample_env false) "pad" "Padded" 4
      (call_stack (.table [("n", .boolean true), ("on", .boolean true)])) pad_engine
      fresh_builder (pad_engine_used false)._fbb _ _ rfl rfl).1,
    (C14_encode_agrees_from_any_arena (sample_env false) "pad" "Padded" 4
      (call_stack (.table [("n", .boolean true), ("on", .boolean true)])) pad_engine
      fresh_builder (pad_engine_used false)._fbb _ _ rfl rfl).2.2.2.1⟩

/-- The function `is_postfix_file` accepts a path exactly when the path is a stem of at
least two bytes, a dot and the ending. -/
theorem is_postfix_file_accepts_iff (path suffix : String) :
    is_postfix_file path suffix = 1
      ↔ ∃ stem : List Nat, 2 ≤ stem.length ∧ c_str path = stem ++ 46 :: c_str suffix := by
  have hdef : is_postfix_file path suffix
      = if (c_str path).length ≤ (c_str suffix).length + 2 then 0
        else if (c_str path)[(c_str path).length - (c_str suffix).length - 1]? = some 46
            ∧ (c_str path).drop ((c_str path).length - (c_str suffix).length)
              = c_str suffix then 1
        else 0 := rfl
  rw [hdef]
  generalize c_str path = p
  generalize c_str suffix = s
  constructor
  · intro h
    by_cases hlen : p.length ≤ s.length + 2
    · rw [if_pos hlen] at h
      exact absurd h (by decide)
    · rw [if_neg hlen] at h
      by_cases hc : p[p.length - s.length - 1]? = some 46 ∧ p.drop (p.length - s.length) = s
      · obtain ⟨hdot, hdrop⟩ := hc
        refine ⟨p.take (p.length - s.length - 1), ?_, ?_⟩
        · rw [List.length_take]
          omega
        · have hk : p.length - s.length - 1 < p.length := by omega
          have hget : p[p.length - s.length - 1] = 46 := by
            rw [List.getElem?_eq_getElem hk] at hdot
            exact Option.some.inj hdot
          have h1 := List.drop_eq_getElem_cons hk
          have h2 : p.length - s.length - 1 + 1 = p.length - s.length := by omega
          rw [h2, hdrop, hget] at h1
          rw [← h1, List.take_append_drop]
      · rw [if_neg hc] at h
        exact absurd h (by decide)
  · rintro ⟨stem, hstem, hdata⟩
    subst hdata
    have hlen : (stem ++ 46 :: s).length = stem.length + 1 + s.length := by
      simp
      omega
    have hnot : ¬ (stem ++ 46 :: s).length ≤ s.length + 2 := by omega
    have hk : (stem ++ 46 :: s).length - s.length - 1 = stem.length := by omega
    have hk2 : (stem ++ 46 :: s).length - s.length = stem.length + 1 := by omega
    rw [if_neg hnot, hk, hk2]
    have h1 : (stem ++ 46 :: s)[stem.length]? = some 46 := by
      rw [List.getElem?_append_right (le_refl _)]
      simp
    have h2 : (stem ++ 46 :: s).drop (stem.length + 1) = s := by
      rw [List.drop_append_eq_append_drop]
      simp
    rw [if_pos ⟨h1, h2⟩]

/-- The length `is_postfix_file` compares is a number of bytes: a stem of one character
that takes two bytes is accepted. -/
theorem is_postfix_file_counts_bytes :
    is_postfix_file "\u00e9.bfbs" "bfbs" = 1
    ∧ c_str "\u00e9.bfbs" = [195, 169, 46, 98, 102, 98, 115] := by
  decide

/-! ## The Lua stack across `encode_struct` -/

theorem lua_getfield_push (L L1 : lua_State) (idx : Nat) (k : String)
    (h : lua_getfield L idx k = some L1) : ∃ v, L1 = lua_push L v := by
  unfold lua_getfield at h
  split at h
  · exact ⟨_, (Option.some.inj h).symm⟩
  · simp at h

/-- The macro `CHECK_FIELD` of `encode_struct`: when it lets the iteration go on, one
value was pushed; when it returns, the stack is the stack before. -/
theorem struct_CHECK_FIELD_stack (index : Nat) (fld : Field) (L : lua_State)
    (self : lflatbuffers) :
    ((lflatbuffers.struct_CHECK_FIELD index fld L self).exit = none →
      ∃ v, (lflatbuffers.struct_CHECK_FIELD index fld L self).L = lua_push L v)
    ∧ (∀ r, (lflatbuffers.struct_CHECK_FIELD index fld L self).exit = some (.returned r) →
      (lflatbuffers.struct_CHECK_FIELD index fld L self).L = L) := by
  unfold lflatbuffers.struct_CHECK_FIELD
  cases hg : lua_getfield L index fld.name with
  | none => simp
  | some L1 =>
    obtain ⟨v, hv⟩ := lua_getfield_push L L1 index fld.name hg
    subst hv
    by_cases hn : lua_isnil (lua_push L v) (index + 1) = true
    · simp [hn, lua_pop_push]
    · simp [hn]

theorem encode_struct_field_stack (env : Env) (buffer : Int) (index : Nat) (fld : Field)
    (L : lua_State) (self : lflatbuffers) :
    ((lflatbuffers.encode_struct_field env buffer index fld L self).exit = none →
      (lflatbuffers.encode_struct_field env buffer index fld L self).L = L)
    ∧ (∀ r, (lflatbuffers.encode_struct_field env buffer index fld L self).exit
        = some (.returned r) →
      (lflatbuffers.encode_struct_field env buffer index fld L self).L = L) := by
  have hc := struct_CHECK_FIELD_stack index fld L self
  unfold lflatbuffers.encode_struct_field
  generalize lflatbuffers.struct_CHECK_FIELD index fld L self = c at hc
  obtain ⟨ce, cL, cs⟩ := c
  cases ce with
  | some o =>
    refine ⟨by simp, fun r hr => ?_⟩
    simp only [Option.some.injEq] at hr
    subst hr
    simpa using hc.2 r rfl
  | none =>
    obtain ⟨v, hv⟩ := hc.1 rfl
    simp only at hv
    subst hv
    cases hd : env.ndebug <;> cases hnum : lua_isnumber env (lua_push L v) (index + 1) <;>
      cases hb : fld.type.base_type <;>
      simp [hd, hb, hnum, lflatbuffers.SET_NUMBER, lua_pop_push]

theorem encode_struct_scalar_stack (env : Env) (buffer : Int) (index : Nat) :
    ∀ (scalar : List Field) (L : lua_State) (self : lflatbuffers) (r : Int),
      (lflatbuffers.encode_struct_scalar env buffer index scalar L self).outcome = .returned r →
      (lflatbuffers.encode_struct_scalar env buffer index scalar L self).L = L
  | [], L, self, r, _ => by simp [lflatbuffers.encode_struct_scalar]
  | fld :: rest, L, self, r, h => by
    have hs := encode_struct_field_stack env buffer index fld L self
    simp only [lflatbuffers.encode_struct_scalar] at h ⊢
    generalize lflatbuffers.encode_struct_field env buffer index fld L self = s at h hs ⊢
    obtain ⟨se, sL, ss⟩ := s
    cases se with
    | some o =>
      simp only at h ⊢
      subst h
      exact hs.2 r rfl
    | none =>
      simp only at h ⊢
      have hL : sL = L := hs.1 rfl
      subst hL
      exact encode_struct_scalar_stack env buffer index rest sL ss r h

mutual

/-- Whenever `encode_struct` returns, the Lua stack is the stack on entry. -/
theorem encode_struct_stack (env : Env) :
    ∀ (seq : sequence) (buffer : Int) (index : Nat) (L : lua_State) (self : lflatbuffers)
      (r : Int),
      (lflatbuffers.encode_struct env buffer index seq L self).outcome = .returned r →
      (lflatbuffers.encode_struct env buffer index seq L self).L = L
  | .mk fo object nested scalar, buffer, index, L, self, r, h => by
    have hn := encode_struct_nested_stack env nested buffer index L self
    simp only [lflatbuffers.encode_struct] at h ⊢
    by_cases ha : (!env.ndebug && !object.is_struct) = true
    · simp [ha] at h
    · simp only [ha] at h ⊢
      generalize lflatbuffers.encode_struct_nested env buffer index nested L self = n
        at h hn ⊢
      obtain ⟨ne, nL, ns⟩ := n
      cases ne with
      | some o =>
        simp only [Bool.false_eq_true, if_false] at h ⊢
        subst h
        exact hn.2 r rfl
      | none =>
        have hL : nL = L := hn.1 rfl
        subst hL
        simp only [Bool.false_eq_true, if_false] at h ⊢
        by_cases hb : (!env.ndebug && lua_gettop nL != index) = true
        · simp [hb] at h
        · simp only [hb, Bool.false_eq_true, if_false] at h ⊢
          exact encode_struct_scalar_stack env buffer index scalar nL ns r h

/-- The nested loop of `encode_struct`: when it ends normally, and when it makes
`encode_struct` return, the Lua stack is the stack on entry. -/
theorem encode_struct_nested_stack (env : Env) :
    ∀ (nested : List sequence) (buffer : Int) (index : Nat) (L : lua_State)
      (self : lflatbuffers),
      ((lflatbuffers.encode_struct_nested env buffer index nested L self).exit = none →
        (lflatbuffers.encode_struct_nested env buffer index nested L self).L = L)
      ∧ (∀ r, (lflatbuffers.encode_struct_nested env buffer index nested L self).exit
          = some (.returned r) →
        (lflatbuffers.encode_struct_nested env buffer index nested L self).L = L)
  | [], buffer, index, L, self => by simp [lflatbuffers.encode_struct_nested]
  | sub :: rest, buffer, index, L, self => by
    cases hf : sub.field with
    | none => simp [lflatbuffers.encode_struct_nested, hf]
    | some fld =>
      by_cases ha : (!env.ndebug && !sub.object.is_struct) = true
      · simp [lflatbuffers.encode_struct_nested, hf, ha]
      · have hc := struct_CHECK_FIELD_stack index fld L self
        simp only [lflatbuffers.encode_struct_nested, hf, ha]
        generalize lflatbuffers.struct_CHECK_FIELD index fld L self = c at hc
        obtain ⟨ce, cL, cs⟩ := c
        cases ce with
        | some o =>
          refine ⟨by simp, fun r hr => ?_⟩
          simp only [Bool.false_eq_true, if_false, Option.some.injEq] at hr ⊢
          subst hr
          simpa using hc.2 r rfl
        | none =>
          obtain ⟨v, hv⟩ := hc.1 rfl
          simp only at hv
          subst hv
          have hsub := encode_struct_stack env sub (buffer + (fld.offset : Int)) (index + 1)
            (lua_push L v) cs
          simp only [Bool.false_eq_true, if_false]
          generalize lflatbuffers.encode_struct env (buffer + (fld.offset : Int)) (index + 1)
            sub (lua_push L v) cs = r at hsub
          obtain ⟨ro, rL, rs⟩ := r
          cases ro with
          | returned w =>
            have hL : rL = lua_push L v := hsub w rfl
            subst hL
            by_cases hw : w < 0
            · simp [hw, lua_pop_push]
            · simp only [hw, if_false, lua_pop_push]
              exact encode_struct_nested_stack env rest buffer index L rs
          | lua_error => simp
          | aborted => simp

end

/-- C21: when `encode_struct` is entered with the value on top of the stack
(`lua_gettop( L ) == index`), then on every path on which it returns, with `0` or with
`-1`, the Lua stack is the stack on entry, so its height is the height on entry;
whenever the nested loop ends and the assertion `lua_gettop( L ) == index` is reached,
it holds; and each nested activation is entered right after `CHECK_FIELD` pushed one
value, with `index + 1` and the top of the stack at `index + 1`, so the same holds at
any depth. -/
theorem C21_encode_struct_is_stack_balanced (env : Env) (seq : sequence) (buffer : Int)
    (index : Nat) (L : lua_State) (self : lflatbuffers) (htop : lua_gettop L = index) :
    (∀ r, (lflatbuffers.encode_struct env buffer index seq L self).outcome = .returned r →
      (lflatbuffers.encode_struct env buffer index seq L self).L = L
      ∧ lua_gettop (lflatbuffers.encode_struct env buffer index seq L self).L = lua_gettop L)
    ∧ ((lflatbuffers.encode_struct_nested env buffer index seq.nested L self).exit = none →
      lua_gettop (lflatbuffers.encode_struct_nested env buffer index seq.nested L self).L = index
      ∧ (lua_gettop (lflatbuffers.encode_struct_nested env buffer index seq.nested L self).L
          != index) = false)
    ∧ (∀ fld, (lflatbuffers.struct_CHECK_FIELD index fld L self).exit = none →
      lua_gettop (lflatbuffers.struct_CHECK_FIELD index fld L self).L = index + 1) := by
  refine ⟨fun r hr => ?_, fun hn => ?_, fun fld hc => ?_⟩
  · have := encode_struct_stack env seq buffer index L self r hr
    exact ⟨this, by rw [this]⟩
  · have := (encode_struct_nested_stack env seq.nested buffer index L self).1 hn
    rw [this]
    exact ⟨htop, by simp [htop]⟩
  · obtain ⟨v, hv⟩ := (struct_CHECK_FIELD_stack index fld L self).1 hc
    rw [hv, ← htop]
    simp [lua_gettop, lua_push]

/-- C21 at the struct `Outer { inner:Inner; }` and the value `{inner = {a = true}}` on top
of the stack at index 4. -/
theorem C21_encode_struct_is_stack_balanced_witness :
    lua_gettop (call_stack (.table [("inner", .table [("a", .boolean true)])])) = 4
    ∧ (lflatbuffers.encode_struct (sample_env false) (-4) 4 outer_sequence
        (call_stack (.table [("inner", .table [("a", .boolean true)])])) geo_engine).outcome
        = .returned 0
    ∧ lua_gettop (lflatbuffers.encode_struct (sample_env false) (-4) 4 outer_sequence
        (call_stack (.table [("inner", .table [("a", .boolean true)])])) geo_engine).L
        = lua_gettop (call_stack (.table [("inner", .table [("a", .boolean true)])]))
    ∧ lua_gettop (lflatbuffers.encode_struct_nested (sample_env false) (-4) 4
        outer_sequence.nested
        (call_stack (.table [("inner", .table [("a", .boolean true)])])) geo_engine).L = 4 :=
  ⟨rfl, by decide,
    ((C21_encode_struct_is_stack_balanced (sample_env false) outer_sequence (-4) 4
      (call_stack (.table [("inner", .table [("a", .boolean true)])])) geo_engine rfl).1 0
      (by decide)).2,
    ((C21_encode_struct_is_stack_balanced (sample_env false) outer_sequence (-4) 4
      (call_stack (.table [("inner", .table [("a", .boolean true)])])) geo_engine rfl).2.1
      (by decide)).1⟩

end lua_flatbuffers
